import Mathlib

/-!
Verification development for the OBD-Drive Home Assistant integration
(`custom_components/obd_drive`). The Python data-plane core — the HTTP
ingestion handler (`api.py`), its session cache, and the vehicle
coordinator (`coordinator.py`) — is shallowly embedded below: Python
dicts become association lists (insertion-ordered, unique keys, as
`dict` is), Python floats become exact rationals (every number the
decoder produces is finite; `round` is modelled as round-half-even on
rationals, matching Python's rounding mode), and host-framework helpers
that are not part of this repository (`homeassistant.util.slugify`, the
constants module `const.py`, the label table `labels_fr.py`) are
modelled explicitly and marked as such.
-/

set_option maxRecDepth 100000
set_option maxHeartbeats 2000000

namespace OBD

/-! ### Python string primitives

`str.lower`, `str.strip`, and the `\s`/`\d` character classes of the
`re` module, restricted to the ASCII/Latin-1 range actually exercised by
the integration (Python operates on full Unicode tables; the inputs the
claims quantify over are covered exactly by this range). -/

/-- Python `str.lower` on one character: ASCII `A`–`Z` and the Latin-1
uppercase letters `À`–`Þ` (excluding `×`) map down by 32 code points. -/
def pyToLower (c : Char) : Char :=
  if 'A' ≤ c ∧ c ≤ 'Z' then Char.ofNat (c.toNat + 32)
  else if 0xC0 ≤ c.toNat ∧ c.toNat ≤ 0xDE ∧ c.toNat ≠ 0xD7 then Char.ofNat (c.toNat + 32)
  else c

/-- Python whitespace (the `\s` class / `str.strip` set): space, tab,
newline, carriage return, vertical tab, form feed. -/
def isPyWs (c : Char) : Bool := c.toNat ∈ [32, 9, 10, 13, 11, 12]

/-- ASCII decimal digit (the `\d` class of the source's regex). -/
def isAsciiDigit (c : Char) : Bool := 48 ≤ c.toNat ∧ c.toNat ≤ 57

/-- Python `str.strip()` on a character list. -/
def pyStripL (l : List Char) : List Char :=
  ((l.dropWhile isPyWs).reverse.dropWhile isPyWs).reverse

/-- Python `str.strip()`. -/
def pyStrip (s : String) : String := ⟨pyStripL s.data⟩

/-- Python `str.lower()`. -/
def pyLower (s : String) : String := ⟨s.data.map pyToLower⟩

/-- Python's truthiness-based `or` on strings: `a or b` yields `b`
exactly when `a` is empty. -/
def pyor (a b : String) : String := if a = "" then b else a

/-- Python `a or b` for optional strings (`dict.get` results): `None`
and `""` both fall through to the right operand. -/
def pyorOpt (a b : Option String) : Option String :=
  match a with
  | some s => if s = "" then b else some s
  | none => b

/-! ### Association-list model of Python `dict`

A `dict` preserves insertion order; updating an existing key keeps its
position, inserting a new key appends at the end. -/

/-- `d.get(k)`. -/
def dget (l : List (String × α)) (k : String) : Option α :=
  (l.find? (fun p => p.1 = k)).map (·.2)

/-- `d.get(k, "")` followed by Python truthiness: missing keys behave as
the empty string. -/
def dgetS (l : List (String × String)) (k : String) : String := (dget l k).getD ""

/-- `d[k] = v`: replace in place if present (keys are unique, so
replacing the first occurrence is dict update), else append. -/
def dset (l : List (String × α)) (k : String) (v : α) : List (String × α) :=
  match l with
  | [] => [(k, v)]
  | p :: rest => if p.1 = k then (k, v) :: rest else p :: dset rest k v

/-- `d.setdefault(k, v)`. -/
def dsetd (l : List (String × α)) (k : String) (v : α) : List (String × α) :=
  match l with
  | [] => [(k, v)]
  | p :: rest => if p.1 = k then p :: rest else p :: dsetd rest k v

/-- `d.pop(k, None)` (the remaining entries, order preserved). -/
def dpop (l : List (String × α)) (k : String) : List (String × α) :=
  l.filter (fun p => p.1 ≠ k)

/-! ### `_is_poor_name` (api.py lines 117–127) -/

/-- The regex `^\s*vehicle\s*\d+\s*$` of api.py line 117, run as the
deterministic maximal-munch matcher (the character classes `\s`, the
literal, and `\d` are pairwise disjoint, so greedy matching agrees with
the backtracking regex). -/
def matchPoorRegex (l : List Char) : Bool :=
  let l1 := l.dropWhile isPyWs
  if l1.take 7 = "vehicle".data then
    let l2 := (l1.drop 7).dropWhile isPyWs
    let ds := l2.takeWhile isAsciiDigit
    if ds = [] then false
    else (l2.dropWhile isAsciiDigit).dropWhile isPyWs = []
  else false

/-- api.py lines 118–127: a profile name is "poor" when empty, blank,
case-insensitively the bare word `vehicle`/`véhicule`, or matching the
`vehicle<digits>` regex. All call sites pass a (possibly empty) string,
so the `None` case of the Python signature is folded into `""`. -/
def _is_poor_name (name : String) : Bool :=
  if name = "" then true
  else
    let s := pyStripL name.data
    if s = [] then true
    else
      let low := s.map pyToLower
      if low = "vehicle".data ∨ low = "véhicule".data then true
      else matchPoorRegex low

/-! ### SHA-1 (`hashlib.sha1(...).hexdigest()`)

`_parse_fields` salts profile ids with the first four hex characters of
the SHA-1 of the email. The hash is implemented here over `Nat` with
explicit reduction mod `2^32`. -/

/-- UTF-8 encoding of one character (`str.encode("utf-8")`). -/
def utf8Bytes (c : Char) : List Nat :=
  let n := c.toNat
  if n < 0x80 then [n]
  else if n < 0x800 then [0xC0 + n / 64, 0x80 + n % 64]
  else if n < 0x10000 then [0xE0 + n / 4096, 0x80 + (n / 64) % 64, 0x80 + n % 64]
  else [0xF0 + n / 262144, 0x80 + (n / 4096) % 64, 0x80 + (n / 64) % 64, 0x80 + n % 64]

/-- UTF-8 bytes of a string. -/
def strBytes (s : String) : List Nat := (s.data.map utf8Bytes).flatten

/-- Left rotation of a 32-bit word. -/
def rotl32 (k n : Nat) : Nat := ((n <<< k) ||| (n >>> (32 - k))) % 4294967296

/-- Big-endian 32-bit words from a byte list. -/
def bytesToWords : List Nat → List Nat
  | a :: b :: c :: d :: rest => (a * 16777216 + b * 65536 + c * 256 + d) :: bytesToWords rest
  | _ => []

/-- Split a word list into 16-word blocks (a padded SHA-1 message is
always an exact multiple of 16 words; a shorter tail cannot occur). -/
def chunks16 : List Nat → List (List Nat)
  | [] => []
  | a1 :: a2 :: a3 :: a4 :: a5 :: a6 :: a7 :: a8 ::
    a9 :: a10 :: a11 :: a12 :: a13 :: a14 :: a15 :: a16 :: rest =>
      [a1, a2, a3, a4, a5, a6, a7, a8, a9, a10, a11, a12, a13, a14, a15, a16] :: chunks16 rest
  | l => [l]

/-- SHA-1 message-schedule expansion: pushes `fuel` further words onto
the 16 block words. -/
def sha1Expand (ws : Array Nat) : Nat → Array Nat
  | 0 => ws
  | fuel + 1 =>
    let n := ws.size
    let x := (ws.getD (n - 3) 0) ^^^ (ws.getD (n - 8) 0) ^^^
             (ws.getD (n - 14) 0) ^^^ (ws.getD (n - 16) 0)
    sha1Expand (ws.push (rotl32 1 x)) fuel

/-- One SHA-1 compression round. -/
def sha1Round (ws : Array Nat) (st : Nat × Nat × Nat × Nat × Nat) (i : Nat) :
    Nat × Nat × Nat × Nat × Nat :=
  let (a, b, c, d, e) := st
  let fk : Nat × Nat :=
    if i < 20 then ((b &&& c) ||| ((b ^^^ 4294967295) &&& d), 0x5A827999)
    else if i < 40 then (b ^^^ c ^^^ d, 0x6ED9EBA1)
    else if i < 60 then ((b &&& c) ||| (b &&& d) ||| (c &&& d), 0x8F1BBCDC)
    else (b ^^^ c ^^^ d, 0xCA62C1D6)
  let temp := (rotl32 5 a + fk.1 + e + fk.2 + ws.getD i 0) % 4294967296
  (temp, a, rotl32 30 b, c, d)

/-- SHA-1 compression of one 512-bit block into the running state. -/
def sha1Block (h : Nat × Nat × Nat × Nat × Nat) (block : List Nat) :
    Nat × Nat × Nat × Nat × Nat :=
  let ws := sha1Expand (Array.mk block) 64
  let (a, b, c, d, e) := (List.range 80).foldl (sha1Round ws) h
  let (h0, h1, h2, h3, h4) := h
  ((h0 + a) % 4294967296, (h1 + b) % 4294967296, (h2 + c) % 4294967296,
   (h3 + d) % 4294967296, (h4 + e) % 4294967296)

/-- Big-endian 64-bit length footer. -/
def sha1LenBytes (n : Nat) : List Nat :=
  (List.range 8).map (fun i => (n >>> (56 - 8 * i)) % 256)

/-- SHA-1 digest (five 32-bit words) of a byte list. -/
def sha1Words (msg : List Nat) : Nat × Nat × Nat × Nat × Nat :=
  let ml := msg.length
  let padLen := (119 - ml % 64) % 64
  let padded := msg ++ [0x80] ++ List.replicate padLen 0 ++ sha1LenBytes (8 * ml)
  (chunks16 (bytesToWords padded)).foldl sha1Block
    (0x67452301, 0xEFCDAB89, 0x98BADCFE, 0x10325476, 0xC3D2E1F0)

/-- Lowercase hex character of a nibble. -/
def hexDigit (d : Nat) : Char := Char.ofNat (if d < 10 then 48 + d else 87 + d)

/-- Eight-hex-character rendering of a 32-bit word. -/
def hex32 (n : Nat) : List Char :=
  (List.range 8).map (fun i => hexDigit ((n >>> (28 - 4 * i)) % 16))

/-- `hashlib.sha1(s.encode("utf-8")).hexdigest()`. -/
def sha1hex (s : String) : String :=
  let (h0, h1, h2, h3, h4) := sha1Words (strBytes s)
  ⟨hex32 h0 ++ hex32 h1 ++ hex32 h2 ++ hex32 h3 ++ hex32 h4⟩

/-! ### Slugs, rounding, numeric parsing -/

/-- Character kept by the slugifier after lowercasing: ASCII lowercase
letter or digit. -/
def isSlugAlnum (c : Char) : Bool :=
  (97 ≤ c.toNat ∧ c.toNat ≤ 122) ∨ (48 ≤ c.toNat ∧ c.toNat ≤ 57)

/-- Maximal runs of characters satisfying `p` (dropping separators);
`cur` accumulates the current run in reverse. -/
def slugRuns (p : Char → Bool) (cur : List Char) : List Char → List (List Char)
  | [] => if cur = [] then [] else [cur.reverse]
  | c :: rest =>
    if p c then slugRuns p (c :: cur) rest
    else if cur = [] then slugRuns p [] rest
    else cur.reverse :: slugRuns p [] rest

/-- Modelled from the spec: the host helper `homeassistant.util.slugify`
(the `homeassistant` package is not part of this repository). On the
ASCII range it lowercases, deletes apostrophes, turns every maximal run
of remaining non-alphanumeric characters into a single `_` separator,
and trims leading/trailing separators. -/
def slugify (s : String) : String :=
  ⟨List.intercalate ['_']
    (slugRuns isSlugAlnum [] ((s.data.filter (fun c => c ≠ Char.ofNat 39)).map pyToLower))⟩

/-- Round-half-to-even to an integer, Python's rounding mode. -/
def roundHalfEven (q : ℚ) : ℤ :=
  let f := ⌊q⌋
  let r := q - f
  if r < 1/2 then f else if 1/2 < r then f + 1 else if f % 2 = 0 then f else f + 1

/-- Python `round(v, nd)`, modelled as exact decimal rounding of the
rational value (floats are modelled as exact rationals throughout). -/
def pyRound (nd : Nat) (v : ℚ) : ℚ := (roundHalfEven (v * 10 ^ nd) : ℚ) / 10 ^ nd

/-- api.py lines 28–32: `_round(v, nd=2)`. The `float(v)` conversion of
a numeric value cannot fail, so the `nan` fallback is unreachable in the
model. -/
def _round (v : ℚ) (nd : Nat := 2) : ℚ := pyRound nd v

/-- PEP-515 underscore placement check for `float()` literals: every
underscore must sit between two digits (`prev` is the preceding
character, if any). -/
def underscoresOkAux : Option Char → List Char → Bool
  | _, [] => true
  | prev, c :: rest =>
    if c = '_' then
      match prev, rest with
      | some p, n :: _ => isAsciiDigit p && isAsciiDigit n && underscoresOkAux (some c) rest
      | _, _ => false
    else underscoresOkAux (some c) rest

/-- Optional sign prefix: returns (negative?, rest). -/
def parseSignB : List Char → Bool × List Char
  | '+' :: r => (false, r)
  | '-' :: r => (true, r)
  | l => (false, l)

/-- Decimal value of an ASCII digit run. -/
def natOfDigits (l : List Char) : Nat := l.foldl (fun a c => a * 10 + (c.toNat - 48)) 0

/-- Parsed shape of a float literal: sign, mantissa digits as a natural
number, number of fractional digits, signed decimal exponent. -/
structure FloatLit where
  neg : Bool
  mant : Nat
  fracLen : Nat
  exp : ℤ
deriving DecidableEq, Repr

/-- Grammar of a Python float literal (underscores already removed):
`[sign] digits ['.' digits] [('e'|'E') [sign] digits]`, at least one
mantissa digit, nothing trailing. -/
def parsePlainFloat (l : List Char) : Option FloatLit :=
  let (neg, l1) := parseSignB l
  let ip := l1.takeWhile isAsciiDigit
  let l2 := l1.dropWhile isAsciiDigit
  let fpl3 : List Char × List Char :=
    match l2 with
    | '.' :: r => (r.takeWhile isAsciiDigit, r.dropWhile isAsciiDigit)
    | _ => ([], l2)
  let fp := fpl3.1
  let l3 := fpl3.2
  if ip = [] ∧ fp = [] then none
  else
    let mant := natOfDigits (ip ++ fp)
    match l3 with
    | [] => some ⟨neg, mant, fp.length, 0⟩
    | e :: r =>
      if e = 'e' ∨ e = 'E' then
        let (eneg, r1) := parseSignB r
        let ed := r1.takeWhile isAsciiDigit
        if ed = [] ∨ r1.dropWhile isAsciiDigit ≠ [] then none
        else some ⟨neg, mant, fp.length, (if eneg then -1 else 1) * (natOfDigits ed : ℤ)⟩
      else none

/-- Python `float(s)` on a stripped string; `none` models `ValueError`. -/
def parseFloat (l : List Char) : Option FloatLit :=
  if underscoresOkAux none l then parsePlainFloat (l.filter (fun c => c ≠ '_')) else none

/-- Exact rational value of a parsed float literal. Python's `float` is
a binary double; values are modelled as exact rationals. -/
def FloatLit.toRat (t : FloatLit) : ℚ :=
  (if t.neg then -1 else 1) * (t.mant : ℚ) / (10 : ℚ) ^ t.fracLen * (10 : ℚ) ^ t.exp

/-- Magnitude test `|value| ≥ 2^1024`, the threshold past which
`float()` overflows to infinity, computed on the literal's integer
components. -/
def FloatLit.overflows (t : FloatLit) : Bool :=
  match t.exp with
  | .ofNat e =>
    if t.fracLen ≤ e then t.mant * 10 ^ (e - t.fracLen) ≥ 2 ^ 1024
    else t.mant ≥ 2 ^ 1024 * 10 ^ (t.fracLen - e)
  | .negSucc m => t.mant ≥ 2 ^ 1024 * 10 ^ (t.fracLen + (m + 1))

/-- api.py lines 132–146: `_parse_number`. `none` models both `None`
arguments and every rejection branch (empty string, the non-finite
spellings, parse failure, and overflow to a non-finite float). -/
def _parse_number (raw : Option String) : Option ℚ :=
  match raw with
  | none => none
  | some raw =>
    let s := pyStrip raw
    if s = "" then none
    else
      let s2 : String := ⟨s.data.map (fun c => if c = ',' then '.' else c)⟩
      let sl := pyLower s2
      if sl = "inf" ∨ sl = "+inf" ∨ sl = "-inf" ∨ sl = "infinity" ∨ sl = "nan" then none
      else
        match parseFloat s2.data with
        | none => none
        | some t => if t.overflows then none else some t.toRat

/-! ### Constants (`const.py`)

`const.py` belongs to this repository but is not under `src/`; the
constants below are modelled from the spec. Only their roles and
mutual distinctness matter to the claims: merge modes are the
spec's `{none, name, vin}` strings, and the GPS short-field names are
opaque distinct keys. -/

/-- Modelled from the spec: `DEFAULT_LANGUAGE` of `const.py`. -/
def DEFAULT_LANGUAGE : String := "en"

/-- Modelled from the spec: `RUNTIME_LANG_MAP` of `const.py` (resolved
locale per requested locale, defaulting to English). -/
def RUNTIME_LANG_MAP : List (String × String) := [("en", "en"), ("fr", "fr")]

/-- Modelled from the spec: `MERGE_MODE_NONE` of `const.py`. -/
def MERGE_MODE_NONE : String := "none"

/-- Modelled from the spec: `MERGE_MODE_NAME` of `const.py`. -/
def MERGE_MODE_NAME : String := "name"

/-- Modelled from the spec: `MERGE_MODE_VIN` of `const.py`. -/
def MERGE_MODE_VIN : String := "vin"

/-- Modelled from the spec: `OBD_GPS_LAT` of `const.py`, the short name
of the GPS latitude field. -/
def OBD_GPS_LAT : String := "gps_lat"

/-- Modelled from the spec: `OBD_GPS_LON` of `const.py`. -/
def OBD_GPS_LON : String := "gps_lon"

/-- Modelled from the spec: `OBD_GPS_ALTITUDE` of `const.py`. -/
def OBD_GPS_ALTITUDE : String := "gps_height"

/-- Modelled from the spec: `OBD_GPS_ACCURACY` of `const.py`. -/
def OBD_GPS_ACCURACY : String := "gps_acc"

/-- Modelled from the spec: `ENTITY_GPS` of `const.py`, the signal key
under which the location tracker is marked in the tracked set. -/
def ENTITY_GPS : String := "gps"

/-! ### Decoded values and field metadata -/

/-- A value stored in a session's `values` dict: a (finite) number, a
raw string, or `None`. -/
inductive Value where
  | num (x : ℚ)
  | str (s : String)
  | null
deriving DecidableEq

/-- One entry of a session's `meta` dict. `raw_seconds` is the
auxiliary key added by the trip-time conversion. -/
structure MetaEntry where
  name : String
  unit : String
  full_en : String
  code : String
  raw_seconds : Option ℚ := none
deriving DecidableEq

/-- One entry of the static telemetry catalog (`OBD_CODES`; `const.py`
is not under `src/`, so the catalog is an explicit parameter). Missing
dict keys are modelled as `""`. -/
structure CodeMeta where
  shortName : String
  fullName : String
  unit : String
deriving DecidableEq

/-- External collaborators of the decoder: the telemetry catalog and the
localized-label table (built from `labels_fr.py`, also not under
`src/`), keyed by lower-cased stripped English full name. -/
structure Env where
  codes : List (String × CodeMeta)
  labelsFr : List (String × String)

/-- api.py lines 110–115: `get_label` (with `_ensure_labels_fr`'s lazily
built table supplied as `env.labelsFr`). -/
def get_label (env : Env) (lang full_en : String) : String :=
  if pyLower (pyor lang DEFAULT_LANGUAGE) = "fr" then
    (dget env.labelsFr (pyLower (pyStrip full_en))).getD full_en
  else full_en

/-- api.py lines 148–150: `_pick_lang`. -/
def _pick_lang (query_lang : String) : String :=
  (dget RUNTIME_LANG_MAP (pyLower (pyStrip (pyor query_lang DEFAULT_LANGUAGE)))).getD
    DEFAULT_LANGUAGE

/-! ### Unit conversion (`_apply_unit_preference`, api.py lines 34–92) -/

/-- One loop iteration of `_apply_unit_preference` over a snapshot
entry `(short, m)`: rewrite `values[short]` and `meta[short]` in place
when the unit names a known conversion and the value is numeric. -/
def applyUnitStep (acc : List (String × Value) × List (String × MetaEntry))
    (entry : String × MetaEntry) : List (String × Value) × List (String × MetaEntry) :=
  let values := acc.1
  let meta := acc.2
  let short := entry.1
  let m := entry.2
  let unit := pyStrip m.unit
  if unit = "" then acc
  else
    match dget values short with
    | some (.num v) =>
      let u := pyLower unit
      if u = "km/h" ∨ u = "kmh" then
        (dset values short (.num (_round (v * (621371/1000000)) 2)),
         dset meta short { m with unit := "mph" })
      else if u = "km" then
        (dset values short (.num (_round (v * (621371/1000000)) 3)),
         dset meta short { m with unit := "mi" })
      else if u = "m" ∧ short = OBD_GPS_ALTITUDE then
        (dset values short (.num (_round (v * (328084/100000)) 1)),
         dset meta short { m with unit := "ft" })
      else if u = "°c" ∨ u = "c" ∨ u = "degc" then
        (dset values short (.num (_round (v * 9 / 5 + 32) 1)),
         dset meta short { m with unit := "°F" })
      else if u = "kpa" then
        (dset values short (.num (_round (v * (145038/1000000)) 2)),
         dset meta short { m with unit := "psi" })
      else if u = "bar" then
        (dset values short (.num (_round (v * (145038/10000)) 2)),
         dset meta short { m with unit := "psi" })
      else if u = "l/100km" ∨ u = "lper100km" ∨ u = "l_100km" then
        if 0 < v then
          (dset values short (.num (_round ((235215/1000) / v) 2)),
           dset meta short { m with unit := "mpg" })
        else (values, dset meta short m)
      else if u = "n·m" ∨ u = "nm" then
        (dset values short (.num (_round (v * (737562/1000000)) 2)),
         dset meta short { m with unit := "lb·ft" })
      else (values, dset meta short m)
    | _ => acc

/-- api.py lines 34–92: `_apply_unit_preference(values, meta, pref)` —
a no-op unless the preference is `"imperial"`; otherwise one in-place
rewriting pass over a snapshot of `meta.items()`. -/
def _apply_unit_preference (values : List (String × Value))
    (meta : List (String × MetaEntry)) (unit_pref : String) :
    List (String × Value) × List (String × MetaEntry) :=
  if unit_pref ≠ "imperial" then (values, meta)
  else meta.foldl applyUnitStep (values, meta)

/-! ### Query helpers (api.py lines 152–202, 388–398) -/

/-- api.py lines 152–153: `_norm_key`. -/
def _norm_key (k : String) : String :=
  pyStrip ⟨(pyLower k).data.filter (fun c => c ≠ '.' ∧ c ≠ '-' ∧ c ≠ '_')⟩

/-- The candidate profile-name keys of api.py lines 156–160. -/
def profileNameCandidates : List String :=
  ["profileName", "profile_name", "profile",
   "vehicleName", "vehicle", "carName", "car", "name",
   "profilename", "profile.name"]

/-- The normalized `wanted` key set of api.py line 161. -/
def wantedProfileKeys : List String := profileNameCandidates.map _norm_key

/-- api.py lines 155–167: `_extract_profile_name` — first query item
whose normalized key is a profile-name alias and whose stripped value is
non-empty. -/
def _extract_profile_name : List (String × String) → String
  | [] => ""
  | (k, v) :: rest =>
    if wantedProfileKeys.contains (_norm_key k) then
      let s := pyStrip v
      if s ≠ "" then s else _extract_profile_name rest
    else _extract_profile_name rest

/-- First key of `keys` whose stripped query value is non-empty
(api.py lines 390–393). -/
def firstNonEmpty (q : List (String × String)) : List String → String
  | [] => ""
  | k :: rest =>
    let v := pyStrip (dgetS q k)
    if v ≠ "" then v else firstNonEmpty q rest

/-- First key of `keys` whose stripped query value is non-empty and
contains a `.` or `-` (api.py lines 394–397). -/
def firstVersionLike (q : List (String × String)) : List String → String
  | [] => ""
  | k :: rest =>
    let v := pyStrip (dgetS q k)
    if v ≠ "" ∧ v.data.any (fun c => c = '.' ∨ c = '-') then v
    else firstVersionLike q rest

/-- api.py lines 388–398: `_extract_app_version`. -/
def _extract_app_version (q : List (String × String)) : String :=
  pyor (firstNonEmpty q ["appVersion", "app_version", "apkVersion", "versionName", "version"])
       (firstVersionLike q ["ver", "v"])

/-- `re.sub(r"\s+", " ", s)`: collapse whitespace runs to one space
(`prevWs` records whether the previous character was whitespace). -/
def collapseWsAux (prevWs : Bool) : List Char → List Char
  | [] => []
  | c :: rest =>
    if isPyWs c then
      if prevWs then collapseWsAux true rest else ' ' :: collapseWsAux true rest
    else c :: collapseWsAux false rest

/-- api.py line 175: normalize `\r\n`/`\r` to `\n` and `;` to `\n`. -/
def normNewlines : List Char → List Char
  | [] => []
  | '\r' :: '\n' :: rest => '\n' :: normNewlines rest
  | '\r' :: rest => '\n' :: normNewlines rest
  | ';' :: rest => '\n' :: normNewlines rest
  | c :: rest => c :: normNewlines rest

/-- `str.splitlines()` after newline normalization. -/
def splitNl : List Char → List (List Char)
  | [] => [[]]
  | '\n' :: rest => [] :: splitNl rest
  | c :: rest =>
    match splitNl rest with
    | g :: gs => (c :: g) :: gs
    | [] => [[c]]

/-- `line.split(sep, 1)`: split at the first occurrence of `sep`. -/
def splitFirst (sep : List Char) : List Char → Option (List Char × List Char)
  | [] => none
  | c :: rest =>
    if sep.isPrefixOf (c :: rest) then some ([], (c :: rest).drop sep.length)
    else
      match splitFirst sep rest with
      | some (a, b) => some (c :: a, b)
      | none => none

/-- `line.split()`: maximal whitespace-separated words. -/
def wsSplit (l : List Char) : List (List Char) := slugRuns (fun c => !isPyWs c) [] l

/-- One line of `_parse_name_map_text` (api.py lines 176–194): find the
first of the separators `->`, `=>`, `:`, `=` present in the line (in
that order of preference), else fall back to a whitespace split; store
the pair under both the lowercased and the slugified left-hand key. -/
def parseMapLine (mapping : List (String × String)) (raw : List Char) :
    List (String × String) :=
  let line := pyStripL raw
  if line = [] ∨ line.head? = some '#' then mapping
  else
    let lr : Option (List Char × List Char) :=
      match splitFirst "->".data line with
      | some p => some p
      | none =>
        match splitFirst "=>".data line with
        | some p => some p
        | none =>
          match splitFirst ":".data line with
          | some p => some p
          | none =>
            match splitFirst "=".data line with
            | some p => some p
            | none =>
              let parts := wsSplit line
              if parts.length ≥ 2 then
                some (List.intercalate [' '] parts.dropLast, (parts.getLastD []))
              else none
    match lr with
    | none => mapping
    | some (left, right) =>
      let l := pyStripL left
      let r := pyStripL right
      if l = [] ∨ r = [] then mapping
      else dset (dset mapping (pyLower ⟨l⟩) ⟨r⟩) (slugify ⟨l⟩) ⟨r⟩

/-- api.py lines 169–195: `_parse_name_map_text`. -/
def _parse_name_map_text (text : String) : List (String × String) :=
  if text = "" then []
  else (splitNl (normNewlines text.data)).foldl parseMapLine []

/-- api.py lines 197–202: `_lookup_canonical` — the name map consulted
under the lowercased name first, then under its slug; empty-string
results fall through (Python `or`). -/
def _lookup_canonical (name_map : List (String × String)) (profile_name : String) : String :=
  if profile_name = "" then ""
  else
    (pyorOpt (dget name_map (pyLower (pyStrip profile_name)))
             (dget name_map (slugify profile_name))).getD ""

/-! ### Sessions, routes and view state (api.py lines 204–386) -/

/-- The resolved identity of a session (`profile` of api.py line 542). -/
structure Profile where
  Name : String
  Id : String
  Email : String
  version : Option String := none
deriving DecidableEq

/-- One decoded, normalized ingestion result (api.py lines 572–581). -/
structure Session where
  id : String
  last_seen : ℤ
  profile : Profile
  values : List (String × Value)
  meta : List (String × MetaEntry)
  unknown : List (String × String)
  lang : String
  unit_preference : String
deriving DecidableEq

/-- One entry of `_merge_prefs_by_entry` (api.py line 287). -/
structure MergePrefs where
  mode : String
  name_map : List (String × String)
deriving DecidableEq

/-- One entry of `_entry_routes` (api.py lines 289–300). The
coordinator object is modelled by an opaque token naming it. -/
structure Route where
  entry_id : String
  coordinator : Option String
  email : String
  imperial : Bool
  lang : String
  merge_mode : String
  name_map : List (String × String)
  reject_poor_name : Bool
  require_mapped_name : Bool
deriving DecidableEq

/-- The mutable state of the `OBDReceiveDataView` instance (api.py
lines 222–235 plus the legacy class attribute `coordinator`). -/
structure ViewState where
  email0 : String
  lang0 : String
  imperial0 : Bool
  coordinator0 : Option String
  sessions : List (String × Session)
  ttl_seconds : ℤ
  max_sessions : Nat
  last_name_by_email : List (String × String)
  last_name_by_id : List (String × String)
  entry_routes : List (String × Route)
  email_to_entry : List (String × String)
  merge_prefs_by_entry : List (String × MergePrefs)
  canonical_to_entry : List (String × String)
  active : Bool
deriving DecidableEq

/-- api.py lines 239–253: `set_session_limits` — non-positive (or
unparseable, not modelled) proposals are ignored. -/
def set_session_limits (st : ViewState) (ttl_seconds max_sessions : Option ℤ) : ViewState :=
  let st1 :=
    match ttl_seconds with
    | some t => if 0 < t then { st with ttl_seconds := t } else st
    | none => st
  match max_sessions with
  | some m => if 0 < m then { st1 with max_sessions := m.toNat } else st1
  | none => st1

/-- api.py lines 255–256: `set_active`. -/
def set_active (st : ViewState) (active : Bool) : ViewState := { st with active := active }

/-- api.py lines 263–303: `upsert_route`. -/
def upsert_route (st : ViewState) (entry_id : String) (email : Option String)
    (coordinator : Option String) (imperial : Bool) (lang : String)
    (merge_mode : Option String) (merge_name_map : Option String)
    (reject_poor_name : Bool := true) (require_mapped_name : Bool := false) : ViewState :=
  let email_norm := pyLower (pyStrip (email.getD ""))
  let st1 :=
    match dget st.entry_routes entry_id with
    | some prev =>
      if prev.email ≠ "" then { st with email_to_entry := dpop st.email_to_entry prev.email }
      else st
    | none => st
  let mode0 := pyLower (pyStrip (pyor (merge_mode.getD "") MERGE_MODE_NONE))
  let mode :=
    if mode0 = MERGE_MODE_NONE ∨ mode0 = MERGE_MODE_NAME ∨ mode0 = MERGE_MODE_VIN then mode0
    else MERGE_MODE_NONE
  let name_map := _parse_name_map_text (merge_name_map.getD "")
  let st2 := { st1 with
    merge_prefs_by_entry := dset st1.merge_prefs_by_entry entry_id ⟨mode, name_map⟩ }
  let route : Route :=
    ⟨entry_id, coordinator, email_norm, imperial, _pick_lang lang, mode, name_map,
     reject_poor_name, require_mapped_name⟩
  let st3 := { st2 with entry_routes := dset st2.entry_routes entry_id route }
  let st4 :=
    if email_norm ≠ "" then { st3 with email_to_entry := dset st3.email_to_entry email_norm entry_id }
    else st3
  { st4 with active := true }

/-- api.py lines 305–313: `remove_route`. -/
def remove_route (st : ViewState) (entry_id : String) : ViewState :=
  let prev := dget st.entry_routes entry_id
  let st1 := { st with entry_routes := dpop st.entry_routes entry_id }
  let st2 :=
    match prev with
    | some p =>
      if p.email ≠ "" then { st1 with email_to_entry := dpop st1.email_to_entry p.email }
      else st1
    | none => st1
  let st3 := { st2 with merge_prefs_by_entry := dpop st2.merge_prefs_by_entry entry_id }
  let st4 := { st3 with
    canonical_to_entry := st3.canonical_to_entry.filter (fun p => p.2 ≠ entry_id) }
  if st4.entry_routes = [] then { st4 with active := false } else st4

/-- api.py lines 315–333: `_pick_route`. A picked table route is
returned together with its entry id (`some eid`); the synthesized legacy
route carries `none` — this stands for the object identity that
`_maybe_reroute_by_canonical` recovers by scanning `_entry_routes`. -/
def _pick_route (st : ViewState) (email : String) : Option (Option String × Route) :=
  let key := pyLower (pyStrip email)
  if key ≠ "" ∧ (dget st.email_to_entry key).isSome then
    match dget st.email_to_entry key with
    | some eid => (dget st.entry_routes eid).map (fun r => (some eid, r))
    | none => none
  else if key = "" ∧ st.entry_routes.length = 1 then
    st.entry_routes.head?.map (fun p => (some p.1, p.2))
  else if st.entry_routes = [] ∧ (st.coordinator0.isSome ∨ st.email0 ≠ "") then
    some (none,
      ⟨"legacy", st.coordinator0, pyLower (pyStrip st.email0), st.imperial0, st.lang0,
       MERGE_MODE_NONE, [], true, false⟩)
  else none

/-- Lines 348–355 of `_maybe_reroute_by_canonical`: scan every entry's
merge preferences for a name-mode map that resolves the profile name
(first match wins). -/
def scanPrefsForCanonical (profile_name : String) :
    List (String × MergePrefs) → String
  | [] => ""
  | (_, p) :: rest =>
    if p.mode ≠ MERGE_MODE_NAME then scanPrefsForCanonical profile_name rest
    else
      let c := _lookup_canonical p.name_map profile_name
      if c ≠ "" then c else scanPrefsForCanonical profile_name rest

/-- api.py lines 335–370: `_maybe_reroute_by_canonical`. Returns the
(possibly rerouted) route and the updated state (the sticky
`canonical → entry` ownership cache may be populated). -/
def _maybe_reroute_by_canonical (st : ViewState)
    (initial : Option (Option String × Route)) (profile_name : String) :
    Option (Option String × Route) × ViewState :=
  if st.entry_routes = [] then (initial, st)
  else
    let canonical1 : String :=
      match initial with
      | some (eid?, _) =>
        let prefs := (dget st.merge_prefs_by_entry (eid?.getD "")).getD ⟨"", []⟩
        if prefs.mode = MERGE_MODE_NAME then _lookup_canonical prefs.name_map profile_name
        else ""
      | none => ""
    let canonical :=
      if canonical1 = "" ∧ profile_name ≠ "" then
        scanPrefsForCanonical profile_name st.merge_prefs_by_entry
      else canonical1
    if canonical = "" then (initial, st)
    else
      match dget st.canonical_to_entry canonical with
      | some owner =>
        match dget st.entry_routes owner with
        | some r => (some (some owner, r), st)
        | none => (initial, st)
      | none =>
        let owner? : Option String :=
          match initial with
          | some (some eid, _) => some eid
          | _ => st.entry_routes.head?.map (·.1)
        match owner? with
        | some ow =>
          let st2 := { st with canonical_to_entry := dset st.canonical_to_entry canonical ow }
          match dget st2.entry_routes ow with
          | some r => (some (some ow, r), st2)
          | none => (initial, st2)
        | none => (initial, st)

/-- The first `while` loop of `_cleanup_sessions` (api.py lines
374–380): pop entries from the least-recently-touched end whose
`last_seen` is at or before the cutoff, stopping at the first that is
newer. Every stored session carries a timestamp, so the defensive
`last is None` branch cannot fire. -/
def evictExpired (cutoff : ℤ) : List (String × Session) → List (String × Session)
  | [] => []
  | (k, s) :: rest => if s.last_seen ≤ cutoff then evictExpired cutoff rest else (k, s) :: rest

/-- The second `while` loop of `_cleanup_sessions` (api.py lines
381–382): pop from the least-recently-touched end until at or under the
cap. -/
def evictOverCap (maxSessions : Nat) (l : List (String × Session)) : List (String × Session) :=
  l.drop (l.length - maxSessions)

/-- The session-list effect of `_cleanup_sessions`. -/
def cacheCleanup (ttl : ℤ) (maxSessions : Nat) (now : ℤ) (l : List (String × Session)) :
    List (String × Session) :=
  evictOverCap maxSessions (evictExpired (now - ttl) l)

/-- api.py lines 372–382: `_cleanup_sessions`. -/
def _cleanup_sessions (st : ViewState) (now : ℤ) : ViewState :=
  { st with sessions := cacheCleanup st.ttl_seconds st.max_sessions now st.sessions }

/-- The session-list effect of `_upsert_and_touch`: dict upsert followed
by `move_to_end`, i.e. remove any entry under the same id and append at
the most-recently-touched end. -/
def cacheUpsert (l : List (String × Session)) (s : Session) : List (String × Session) :=
  dpop l s.id ++ [(s.id, s)]

/-- api.py lines 384–386: `_upsert_and_touch`. -/
def _upsert_and_touch (st : ViewState) (session : Session) : ViewState :=
  { st with sessions := cacheUpsert st.sessions session }

/-! ### Field decoding (`_parse_fields`, api.py lines 400–587) -/

/-- One iteration of the PID-decoding loop (api.py lines 437–452): keys
beginning with `k`/`K` name catalog codes; unmatched codes go to the
`unknown` bucket (capped at 80 entries), matched codes populate
`values` (parsed number, or the raw string on parse failure) and
`meta`. -/
def decodePidsStep (env : Env) (lang : String)
    (acc : List (String × Value) × List (String × MetaEntry) × List (String × String))
    (kv : String × String) :
    List (String × Value) × List (String × MetaEntry) × List (String × String) :=
  let key := kv.1
  let raw := kv.2
  match key.data with
  | [] => acc
  | c0 :: restChars =>
    if pyToLower c0 ≠ 'k' then acc
    else
      let code := pyLower ⟨restChars⟩
      match dget env.codes code with
      | none =>
        if acc.2.2.length < 80 then (acc.1, acc.2.1, dset acc.2.2 code raw) else acc
      | some mc =>
        let short := mc.shortName
        let unit := mc.unit
        let full_en := pyor mc.fullName short
        let name_fr := get_label env lang full_en
        let v : Value :=
          match _parse_number (some raw) with
          | some x => .num x
          | none => .str raw
        (dset acc.1 short v, dset acc.2.1 short ⟨name_fr, unit, full_en, code, none⟩, acc.2.2)

/-- The PID-decoding loop over all query items. -/
def decodePids (env : Env) (lang : String) (q : List (String × String)) :
    List (String × Value) × List (String × MetaEntry) × List (String × String) :=
  q.foldl (decodePidsStep env lang) ([], [], [])

/-- One iteration of the trip-time seconds→minutes pass (api.py lines
547–559): for the three trip-duration shorts with unit exactly `"s"`
and a (finite) numeric value, preserve the seconds under `raw_seconds`,
store `round(v/60, 2)` and set the unit to `"min"`. -/
def tripTimeStep (acc : List (String × Value) × List (String × MetaEntry))
    (entry : String × MetaEntry) :
    List (String × Value) × List (String × MetaEntry) :=
  let short := entry.1
  let m := entry.2
  let unit := pyStrip m.unit
  if (short = "trip_time_since_start" ∨ short = "trip_time_stationary" ∨
      short = "trip_time_moving") ∧ unit = "s" then
    match dget acc.1 short with
    | some (.num v) =>
      (dset acc.1 short (.num (pyRound 2 (v / 60))),
       dset acc.2 short { m with raw_seconds := some v, unit := "min" })
    | _ => acc
  else acc

/-- api.py lines 561–567: replace non-finite numeric values with null.
Numbers are exact rationals in this model and the decoder only ever
stores parser-produced (finite) numbers, so the replacement branch is
unreachable and the traversal leaves the dict unchanged; strings and
nulls are untouched by the source loop as well. -/
def cleanNonFinite (values : List (String × Value)) : List (String × Value) := values

/-- api.py lines 525–538: derivation of the stable profile id from the
resolved canonical name, usable display name, vehicle id, session id
and email salt. -/
def deriveProfileId (canonical_name effective_name vehicle_id session_id salt : String) :
    String :=
  if canonical_name ≠ "" then slugify canonical_name
  else if effective_name ≠ "" then
    let base := slugify effective_name
    if vehicle_id ≠ "" then
      base ++ "_" ++ ⟨vehicle_id.data.take 4⟩ ++ (if salt ≠ "" then "_" ++ salt else "")
    else base ++ (if salt ≠ "" then "_" ++ salt else "")
  else if vehicle_id ≠ "" then vehicle_id ++ (if salt ≠ "" then "_" ++ salt else "")
  else "veh_" ++ ⟨session_id.data.take 6⟩

/-- api.py lines 425–430: direct GPS latitude with range validation
(out-of-range coordinates are dropped, not nulled). -/
def latDirect (q : List (String × String)) : Option ℚ :=
  match _parse_number (pyorOpt (dget q "lat") (dget q "gpslat")) with
  | some v => if (-90 : ℚ) ≤ v ∧ v ≤ 90 then some v else none
  | none => none

/-- api.py lines 425–430: direct GPS longitude with range validation. -/
def lonDirect (q : List (String × String)) : Option ℚ :=
  match _parse_number (pyorOpt (dget q "lon") (dget q "gpslon")) with
  | some v => if (-180 : ℚ) ≤ v ∧ v ≤ 180 then some v else none
  | none => none

/-- api.py line 460: direct GPS altitude (first non-empty alias). -/
def altDirect (q : List (String × String)) : Option ℚ :=
  _parse_number
    (pyorOpt (dget q "alt") (pyorOpt (dget q "altitude") (pyorOpt (dget q "gps_height") (dget q "gpsalt"))))

/-- api.py lines 464–465: direct GPS accuracy (non-negative only). -/
def accDirect (q : List (String × String)) : Option ℚ :=
  match _parse_number
    (pyorOpt (dget q "acc") (pyorOpt (dget q "accuracy") (pyorOpt (dget q "gps_acc") (dget q "gpsaccuracy")))) with
  | some v => if 0 ≤ v then some v else none
  | none => none

/-- api.py lines 470–471: legacy direct GPS speed (non-negative only). -/
def spdDirect (q : List (String × String)) : Option ℚ :=
  match _parse_number (pyorOpt (dget q "speed_gps") (dget q "gps_spd")) with
  | some v => if 0 ≤ v then some v else none
  | none => none

/-- Apply one direct field: set the value and, if the short is not
already present in `meta`, the synthesized metadata. -/
def applyDirect (short : String) (me : MetaEntry) (v? : Option ℚ)
    (vm : List (String × Value) × List (String × MetaEntry)) :
    List (String × Value) × List (String × MetaEntry) :=
  match v? with
  | some v => (dset vm.1 short (.num v), dsetd vm.2 short me)
  | none => vm

/-- api.py lines 454–476: the direct GPS/compat fields applied on top of
the decoded PID values. -/
def directStage (env : Env) (lang : String) (q : List (String × String))
    (vm : List (String × Value) × List (String × MetaEntry)) :
    List (String × Value) × List (String × MetaEntry) :=
  let vm1 := applyDirect OBD_GPS_LAT
    ⟨get_label env lang "GPS Latitude", "°", "GPS Latitude", "ff1006", none⟩ (latDirect q) vm
  let vm2 := applyDirect OBD_GPS_LON
    ⟨get_label env lang "GPS Longitude", "°", "GPS Longitude", "ff1005", none⟩ (lonDirect q) vm1
  let vm3 := applyDirect OBD_GPS_ALTITUDE
    ⟨get_label env lang "GPS Altitude", "m", "GPS Altitude", "ff1010", none⟩ (altDirect q) vm2
  let vm4 := applyDirect OBD_GPS_ACCURACY
    ⟨get_label env lang "GPS Accuracy", "m", "GPS Accuracy", "ff1239", none⟩ (accDirect q) vm3
  applyDirect "speed_gps"
    ⟨get_label env lang "Vehicle Speed (GPS)", "km/h", "Vehicle Speed (GPS)", "", none⟩
    (spdDirect q) vm4

/-- api.py lines 479–483: the canonical identity — the stripped hint
from the route's name map, overridden by a non-empty `vin` parameter in
VIN merge mode. -/
def canonicalNameOf (merge_mode canonical_hint : String) (q : List (String × String)) : String :=
  let base := if canonical_hint ≠ "" then pyStrip canonical_hint else ""
  let vin := pyStrip (dgetS q "vin")
  if merge_mode = MERGE_MODE_VIN ∧ vin ≠ "" then vin else base

/-- api.py lines 486–496: fallback to the remembered non-poor name for
the vehicle id, else for the email; returns the resolved name and the
`used_email_fallback` flag. -/
def nameFallback (st : ViewState) (profile_name_raw vehicle_id eml : String) :
    String × Bool :=
  if profile_name_raw = "" ∨ _is_poor_name profile_name_raw then
    let r1 := if vehicle_id ≠ "" then (dget st.last_name_by_id vehicle_id).getD "" else ""
    let r2 := if eml ≠ "" then (dget st.last_name_by_email eml).getD "" else ""
    let remembered := pyor r1 r2
    if remembered ≠ "" ∧ ¬ _is_poor_name remembered then (remembered, true)
    else (profile_name_raw, false)
  else (profile_name_raw, false)

/-- api.py lines 507–517: placeholder synthesis and display-name
resolution; returns `(display_name, effective_name, profile_name)`
after the placeholder substitution of line 509. -/
def resolveDisplay (canonical_name profile_name session_id : String) :
    String × String × String :=
  let placeholder : String := "Vehicle " ++ ⟨session_id.data.take 6⟩
  let profile_name2 :=
    if profile_name = "" ∧ canonical_name = "" then placeholder else profile_name
  let display0 := pyor canonical_name profile_name2
  let display_name :=
    if display0 = "" ∨ _is_poor_name display0 then pyor profile_name2 placeholder
    else display0
  let effective_name := if ¬ _is_poor_name display_name then display_name else ""
  (display_name, effective_name, profile_name2)

/-- api.py lines 518–523: the email salt — first four hex characters of
the SHA-1 of the email, computed only when an email is present and no
canonical identity was resolved. -/
def saltOf (eml canonical_name : String) : String :=
  if eml ≠ "" ∧ canonical_name = "" then (⟨(sha1hex eml).data.take 4⟩ : String) else ""

/-- api.py lines 582–586: remember the raw (pre-fallback) name, when it
is not poor, under the email (unless the email fallback was used) and
under the vehicle id. -/
def rememberNames (st : ViewState) (profile_name_raw vehicle_id eml : String)
    (used_email_fallback : Bool) : ViewState :=
  if ¬ _is_poor_name profile_name_raw then
    let stA :=
      if eml ≠ "" ∧ ¬ used_email_fallback then
        { st with last_name_by_email := dset st.last_name_by_email eml profile_name_raw }
      else st
    if vehicle_id ≠ "" then
      { stA with last_name_by_id := dset stA.last_name_by_id vehicle_id profile_name_raw }
    else stA
  else st

/-- api.py lines 400–587: `_parse_fields`. Returns the decoded session
(`none` models the `return None` rejections) together with the updated
view state (the remembered-name tables are written at lines 582–586;
every rejection path leaves the state untouched). `now` stands for
`_now_utc()`. -/
def _parse_fields (env : Env) (st : ViewState) (now : ℤ) (q : List (String × String))
    (lang : String) (imperial_override : Option Bool := none)
    (merge_mode : String := MERGE_MODE_NONE) (canonical_hint : String := "")
    (reject_poor : Bool := true) (require_mapped : Bool := false) :
    Option Session × ViewState :=
  let eml := pyStrip (pyor (dgetS q "eml") (dgetS q "email"))
  let session_id := pyStrip (dgetS q "session")
  if session_id = "" then (none, st)
  else
    let vehicle_id := pyStrip (dgetS q "id")
    let profile_name_raw := pyStrip ⟨collapseWsAux false (_extract_profile_name q).data⟩
    let app_version := _extract_app_version q
    let vmu := decodePids env lang q
    let vm5 := directStage env lang q (vmu.1, vmu.2.1)
    let canonical_name := canonicalNameOf merge_mode canonical_hint q
    let pf := nameFallback st profile_name_raw vehicle_id eml
    let profile_name := pf.1
    if reject_poor ∧ (profile_name = "" ∨ _is_poor_name profile_name) ∧ canonical_name = "" then
      (none, st)
    else if require_mapped ∧ merge_mode = MERGE_MODE_NAME ∧ canonical_name = "" then
      (none, st)
    else
      let dn := resolveDisplay canonical_name profile_name session_id
      let salt := saltOf eml canonical_name
      let profile_id := deriveProfileId canonical_name dn.2.1 vehicle_id session_id salt
      let unit_preference := if imperial_override.getD st.imperial0 then "imperial" else "metric"
      let profile : Profile :=
        ⟨dn.1, profile_id, eml, if app_version ≠ "" then some app_version else none⟩
      let vm6 := vm5.2.foldl tripTimeStep vm5
      let vm8 := _apply_unit_preference (cleanNonFinite vm6.1) vm6.2 unit_preference
      let session : Session :=
        ⟨session_id, now, profile, vm8.1, vm8.2, vmu.2.2, lang, unit_preference⟩
      (some session, rememberNames st profile_name_raw vehicle_id eml pf.2)

/-! ### HTTP surface (api.py lines 602–699) -/

/-- The observable responses of the handler. `emptyOk` is the bare 200
of the HEAD handler. The 500/`"Error"` branch of the source models
unexpected host-level exceptions, which the pure embedding cannot
raise. -/
inductive HttpResp where
  | ok
  | ignored
  | notFound
  | emptyOk
deriving DecidableEq

/-- HTTP status code of a response. -/
def HttpResp.status : HttpResp → Nat
  | .ok => 200
  | .ignored => 200
  | .notFound => 404
  | .emptyOk => 200

/-- Response body text. -/
def HttpResp.text : HttpResp → String
  | .ok => "OK!"
  | .ignored => "IGNORED"
  | .notFound => "Not Found"
  | .emptyOk => ""

/-- The request pipeline shared verbatim by the GET (api.py lines
606–629) and POST (lines 672–693) handlers, after the active check and
cleanup: route pick, canonical reroute, `_parse_fields`, cache upsert
and publish. The third component reports the publish: `some (c, s)`
when session `s` was published towards coordinator token `c` (`none`
inside means the route has no coordinator and `update_from_session` was
skipped). -/
def processQuery (env : Env) (st : ViewState) (now : ℤ) (data : List (String × String)) :
    HttpResp × ViewState × Option (Option String × Session) :=
  let eml := pyStrip (pyor (dgetS data "eml") (dgetS data "email"))
  let profile_name := _extract_profile_name data
  let route0 := _pick_route st eml
  let rr := _maybe_reroute_by_canonical st route0 profile_name
  match rr.1 with
  | none => (.ignored, rr.2, none)
  | some (_, route) =>
    let lang := _pick_lang (pyor (pyor (dgetS data "lang") (dgetS data "language")) route.lang)
    let canonical_hint :=
      if route.merge_mode = MERGE_MODE_NAME then _lookup_canonical route.name_map profile_name
      else ""
    let ps := _parse_fields env rr.2 now data lang (some route.imperial) route.merge_mode
        canonical_hint route.reject_poor_name route.require_mapped_name
    match ps.1 with
    | none => (.ignored, ps.2, none)
    | some session =>
      (.ok, _upsert_and_touch ps.2 session, some (route.coordinator, session))

/-- api.py lines 602–632: the GET handler — 404 when administratively
inactive, else cleanup then the shared pipeline on the query string. -/
def handleGet (env : Env) (st : ViewState) (now : ℤ) (q : List (String × String)) :
    HttpResp × ViewState × Option (Option String × Session) :=
  if ¬ st.active then (.notFound, st, none)
  else processQuery env (_cleanup_sessions st now) now q

/-- api.py lines 634–696: the POST handler. The body assembly (JSON
update, then form-field `setdefault`, then value normalization to
strings) is modelled by the pre-merged string dict `body`; query-string
fields are then merged without overriding body keys (line 657). -/
def handlePost (env : Env) (st : ViewState) (now : ℤ) (body q : List (String × String)) :
    HttpResp × ViewState × Option (Option String × Session) :=
  if ¬ st.active then (.notFound, st, none)
  else
    let data := q.foldl (fun d kv => dsetd d kv.1 kv.2) body
    processQuery env (_cleanup_sessions st now) now data

/-- api.py lines 698–699: the HEAD handler — an unconditional bare 200,
with no active check and no state access. -/
def handleHead (_st : ViewState) (_q : List (String × String)) : HttpResp := .emptyOk

/-! ### Vehicle registry / coordinator (coordinator.py) -/

/-- coordinator.py line 14: the non-finite string spellings. -/
def _NONFINITE_STR : List String := ["inf", "+inf", "-inf", "infinity", "nan"]

/-- coordinator.py lines 15–20: `_is_non_finite`. Numbers are exact
rationals (always finite); strings are tested against the non-finite
spellings; `None` is finite. -/
def _is_non_finite (v : Value) : Bool :=
  match v with
  | .num _ => false
  | .str s => _NONFINITE_STR.contains (pyLower (pyStrip s))
  | .null => false

/-- The coordinator's mutable state (coordinator.py lines 28–29). -/
structure CoordState where
  cars : List (String × Session)
  data : List (String × Session)
  tracked : List String
  pending_trackers : List String
deriving DecidableEq

/-- Suffix test on character lists (`str.endswith`). -/
def endsWithL (l suf : List Char) : Bool := suf.reverse.isPrefixOf l.reverse

/-- Substring test (`needle in hay`). -/
def containsSub (needle hay : List Char) : Bool := (splitFirst needle hay).isSome ∨ needle = []

/-- coordinator.py lines 51–55: `_is_textual_sensor`. -/
def _is_textual_sensor (name : String) : Bool :=
  if name = "" then false
  else
    let n := (pyLower (pyStrip name)).data
    endsWithL n "status".data ∨ endsWithL n "state".data ∨ endsWithL n "mode".data ∨
    containsSub "état".data n ∨ containsSub "statut".data n

/-- coordinator.py lines 57–62: `_is_creatable_sensor`. -/
def _is_creatable_sensor (short : String) (meta : MetaEntry) : Bool :=
  if short = OBD_GPS_LAT ∨ short = OBD_GPS_LON then false
  else
    let name := pyStrip (pyor meta.name short)
    let unit := pyStrip meta.unit
    if unit = "" ∧ ¬ _is_textual_sensor name then false
    else if name = short then false
    else true

/-- The per-signal loop of `update_from_session` (coordinator.py lines
148–159): for each creatable signal not yet in the tracked set, invoke
the sensor-adder callback; only a successful invocation marks the pair
tracked (an exception leaves it unmarked). Returns the tracked set and
the recorded invocations `(car_id, short, success)`. -/
def sensorLoop (car_id : String) (sensorOk : String → String → Bool)
    (acc : List String × List (String × String × Bool)) :
    List (String × MetaEntry) → List String × List (String × String × Bool)
  | [] => acc
  | (short, m) :: rest =>
    if ¬ _is_creatable_sensor short m then sensorLoop car_id sensorOk acc rest
    else
      let key := car_id ++ ":" ++ short
      if acc.1.contains key then sensorLoop car_id sensorOk acc rest
      else if sensorOk car_id short then
        sensorLoop car_id sensorOk (key :: acc.1, acc.2 ++ [(car_id, short, true)]) rest
      else sensorLoop car_id sensorOk (acc.1, acc.2 ++ [(car_id, short, false)]) rest

/-- One vehicle of the `_try_create_all_trackers` loop (coordinator.py
lines 105–112): mark and batch the vehicle when both GPS keys are
present and its tracker marker is absent. -/
def backfillStep (acc : List String × List String) (p : String × Session) :
    List String × List String :=
  if (dget p.2.values OBD_GPS_LAT).isSome ∧ (dget p.2.values OBD_GPS_LON).isSome then
    let key := p.1 ++ ":" ++ ENTITY_GPS
    if acc.1.contains key then acc else (key :: acc.1, acc.2 ++ [p.1])
  else acc

/-- coordinator.py lines 101–115: `_try_create_all_trackers` — batch
backfill of location trackers. Each eligible vehicle is marked tracked
as the batch is built (line 112, before the single adder call, whose
failure is only logged). Returns the new state and the batched ids. -/
def tryCreateAllTrackers (st : CoordState) (hasTrackerAdder : Bool) :
    CoordState × List String :=
  if ¬ hasTrackerAdder then (st, [])
  else
    let r := st.cars.foldl backfillStep (st.tracked, [])
    ({ st with tracked := r.1 }, r.2)

/-- The effects of one coordinator operation: the sensor-adder and
tracker-adder invocations, each with its success flag. -/
structure CoordEffects where
  sensorCalls : List (String × String × Bool)
  trackerCalls : List (String × Bool)
deriving DecidableEq

/-- coordinator.py lines 127–146: the location-tracker block of
`update_from_session` — if GPS latitude and longitude keys are both
present and the vehicle's tracker marker is absent, invoke the tracker
adder (marking tracked only on success, queueing a retry otherwise or
when no adder is registered). -/
def trackerPhase (st1 : CoordState) (car_id : String) (vals : List (String × Value))
    (hasTrackerAdder : Bool) (trackerOk : String → Bool) :
    CoordState × List (String × Bool) :=
  if (dget vals OBD_GPS_LAT).isSome ∧ (dget vals OBD_GPS_LON).isSome then
    let key := car_id ++ ":" ++ ENTITY_GPS
    if ¬ st1.tracked.contains key then
      if hasTrackerAdder then
        if trackerOk car_id then ({ st1 with tracked := key :: st1.tracked }, [(car_id, true)])
        else ({ st1 with pending_trackers := st1.pending_trackers ++ [car_id] }, [(car_id, false)])
      else ({ st1 with pending_trackers := st1.pending_trackers ++ [car_id] }, [])
    else (st1, [])
  else (st1, [])

/-- coordinator.py lines 160–161: the deferred-tracker retry at the end
of `update_from_session`. -/
def backfillPhase (st3 : CoordState) (hasTrackerAdder : Bool) : CoordState × List String :=
  if st3.pending_trackers ≠ [] ∧ hasTrackerAdder then
    let b := tryCreateAllTrackers st3 hasTrackerAdder
    ({ b.1 with pending_trackers := [] }, b.2)
  else (st3, [])

/-- coordinator.py lines 119–120: the vehicle key a session is stored
under (`profile.Id`, falling back to the slug of the name). -/
def carIdOf (session : Session) : String :=
  pyor session.profile.Id (slugify (pyor session.profile.Name "Vehicle"))

/-- coordinator.py lines 121–123: the session's values with residual
non-finite entries nulled in place. -/
def nulledValues (session : Session) : List (String × Value) :=
  session.values.map (fun p => if _is_non_finite p.2 then (p.1, Value.null) else p)

/-- The session as stored by the coordinator (values nulled in place;
the same dict object, so `meta` is untouched). -/
def sessionStored (session : Session) : Session :=
  { session with values := nulledValues session }

/-- coordinator.py line 124: store the session under its vehicle key in
`cars` and `data`. -/
def updSt1 (st : CoordState) (session : Session) : CoordState :=
  { st with cars := dset st.cars (carIdOf session) (sessionStored session),
            data := dset st.data (carIdOf session) (sessionStored session) }

/-- coordinator.py lines 148–159: the sensor loop of
`update_from_session`, run on the tracked set left by the tracker
phase (skipped entirely when no sensor adder is registered). -/
def updSensorRes (st : CoordState) (session : Session) (hasTrackerAdder : Bool)
    (trackerOk : String → Bool) (hasSensorAdder : Bool)
    (sensorOk : String → String → Bool) : List String × List (String × String × Bool) :=
  let st2 := (trackerPhase (updSt1 st session) (carIdOf session) (nulledValues session)
    hasTrackerAdder trackerOk).1
  if hasSensorAdder then
    sensorLoop (carIdOf session) sensorOk (st2.tracked, []) (sessionStored session).meta
  else (st2.tracked, [])

/-- coordinator.py lines 117–163: `update_from_session`. The callback
environment is explicit: `hasTrackerAdder`/`hasSensorAdder` model the
registration state of the two adders, and `trackerOk`/`sensorOk` model
whether a given invocation raises (the source wraps each call in
`try`/`except`). The host device-registry bookkeeping
(`_ensure_device_registry`, `async_set_updated_data`) has no effect on
the modelled state. -/
def update_from_session (st : CoordState) (session : Session)
    (hasTrackerAdder : Bool) (trackerOk : String → Bool)
    (hasSensorAdder : Bool) (sensorOk : String → String → Bool) :
    CoordState × CoordEffects :=
  let trackerRes := trackerPhase (updSt1 st session) (carIdOf session) (nulledValues session)
    hasTrackerAdder trackerOk
  let sensorRes := updSensorRes st session hasTrackerAdder trackerOk hasSensorAdder sensorOk
  let st3 := { trackerRes.1 with tracked := sensorRes.1 }
  let backfill := backfillPhase st3 hasTrackerAdder
  (backfill.1,
   ⟨sensorRes.2, trackerRes.2 ++ backfill.2.map (fun c => (c, true))⟩)

/-- coordinator.py lines 165–168: `forget_vehicle` — purge the stored
sessions and every tracked marker prefixed by `car_id:`. -/
def forget_vehicle (st : CoordState) (vehicle_key : String) : CoordState :=
  { cars := dpop st.cars vehicle_key,
    data := dpop st.data vehicle_key,
    tracked := st.tracked.filter (fun k => ¬ (vehicle_key ++ ":").data.isPrefixOf k.data),
    pending_trackers := st.pending_trackers }

/-- A trace operation on the coordinator: an accepted-session delivery
or an explicit eviction. -/
inductive CoordOp where
  | update (session : Session) (hasTrackerAdder : Bool) (trackerOk : String → Bool)
      (hasSensorAdder : Bool) (sensorOk : String → String → Bool)
  | forget (vehicle_key : String)

/-- Run one coordinator operation. -/
def runCoordOp (st : CoordState) : CoordOp → CoordState × CoordEffects
  | .update s hta tok hsa sok => update_from_session st s hta tok hsa sok
  | .forget k => (forget_vehicle st k, ⟨[], []⟩)

/-- Whether a trace operation is an `update_from_session` delivery. -/
def CoordOp.isUpdate : CoordOp → Bool
  | .update _ _ _ _ _ => true
  | .forget _ => false

/-- Run a trace of operations, concatenating the recorded sensor
invocations. -/
def runCoordOps (st : CoordState) : List CoordOp → CoordState × List (String × String × Bool)
  | [] => (st, [])
  | op :: rest =>
    let r := runCoordOp st op
    let r2 := runCoordOps r.1 rest
    (r2.1, r.2.sensorCalls ++ r2.2)

/-! ### Derived request projections

Named forms of the header fields `_parse_fields` extracts from the
request (api.py lines 412–419), used to state the claims. -/

/-- api.py line 412: the stripped email of a request. -/
def emailOf (q : List (String × String)) : String :=
  pyStrip (pyor (dgetS q "eml") (dgetS q "email"))

/-- api.py line 413: the stripped session id of a request. -/
def sessionIdOf (q : List (String × String)) : String := pyStrip (dgetS q "session")

/-- api.py line 417: the stripped vehicle id of a request. -/
def vehicleIdOf (q : List (String × String)) : String := pyStrip (dgetS q "id")

/-- api.py lines 418–419: the whitespace-normalized raw profile name of
a request. -/
def rawNameOf (q : List (String × String)) : String :=
  pyStrip ⟨collapseWsAux false (_extract_profile_name q).data⟩

/-- api.py line 615/679: the canonical hint the handler computes for a
resolved route. -/
def canonicalOfRoute (route : Route) (q : List (String × String)) : String :=
  if route.merge_mode = MERGE_MODE_NAME then
    _lookup_canonical route.name_map (_extract_profile_name q)
  else ""

/-! ### Specification-side predicates

These definitions follow the words of the specification (not the code)
and are compared against the embedded source functions. -/

/-- Following the spec's words (§4.2 / claim C8): a name is poor when —
after discarding surrounding whitespace — it is empty, case-insensitively
equals the bare word `vehicle` or `véhicule`, or consists of `vehicle`
followed by only digits, whitespace between and around the parts
allowed. -/
def PoorNameSpec (name : String) : Prop :=
  let t := (pyStripL name.data).map pyToLower
  t = [] ∨ t = "vehicle".data ∨ t = "véhicule".data ∨
  ∃ a b c d, t = a ++ "vehicle".data ++ b ++ c ++ d ∧
    (∀ x ∈ a, isPyWs x = true) ∧ (∀ x ∈ b, isPyWs x = true) ∧
    c ≠ [] ∧ (∀ x ∈ c, isAsciiDigit x = true) ∧ (∀ x ∈ d, isPyWs x = true)

/-! ### Reachable session-cache states (claim C3)

The handler touches the cache in exactly one pattern per accepted
request: `_cleanup_sessions` (before the request is processed), then
`_upsert_and_touch` of a session stamped with the current time
(api.py lines 606/627 and 638/691). Timestamps are nondecreasing. -/

/-- States of the session cache reachable through the handler's
operations: the empty initial cache, then per request a cleanup at the
request time followed by the upsert of a session stamped with that
time. -/
inductive cacheReach (ttl : ℤ) (maxSessions : Nat) :
    List (String × Session) → ℤ → Prop where
  | init (t : ℤ) : cacheReach ttl maxSessions [] t
  | step {l : List (String × Session)} {t : ℤ} (tReq : ℤ) (s : Session)
      (hmono : t ≤ tReq) (hstamp : s.last_seen = tReq)
      (hprev : cacheReach ttl maxSessions l t) :
      cacheReach ttl maxSessions (cacheUpsert (cacheCleanup ttl maxSessions tReq l) s) tReq

/-- Number of successful sensor-adder invocations recorded for a given
(vehicle, signal) pair. -/
def successCount (car short : String) (calls : List (String × String × Bool)) : Nat :=
  (calls.filter (fun t => t.1 = car ∧ t.2.1 = short ∧ t.2.2 = true)).length

/-- Number of invocations (successful or not) recorded for a given
(vehicle, signal) pair. -/
def callCount (car short : String) (calls : List (String × String × Bool)) : Nat :=
  (calls.filter (fun t => t.1 = car ∧ t.2.1 = short)).length

/-! ### Concrete fixtures

Shared concrete inputs used to evaluate the embedded handler in the
witness and counterexample theorems. -/

/-- A one-code catalog (`eng_rpm`, the spec's example code). -/
def fixEnv : Env := ⟨[("eng_rpm", ⟨"eng_rpm", "Engine RPM", "rpm"⟩)], []⟩

/-- A fresh view state as `__init__` builds it (no routes yet, active). -/
def fixView0 : ViewState :=
  ⟨"", "en", false, none, [], 600, 40, [], [], [], [], [], [], true⟩

/-- A view state with one route for `a@b.com`. -/
def fixView : ViewState :=
  upsert_route fixView0 "e1" (some "a@b.com") (some "coord1") false "en" none none

/-- A view state with two name-merging routes whose maps both send
`bob's car` to `shared-car`. -/
def fixView2 : ViewState :=
  upsert_route
    (upsert_route fixView0 "eA" (some "a@b.com") (some "coordA") false "en"
      (some "name") (some "bob's car -> shared-car"))
    "eB" (some "b@b.com") (some "coordB") false "en"
    (some "name") (some "Bob's Car => shared-car")

/-- A session as stored in coordinator fixtures. -/
def fixSession (id : String) (t : ℤ) : Session :=
  ⟨id, t, ⟨"", "", "", none⟩, [], [], [], "", ""⟩

/-- A session carrying one creatable signal, for coordinator fixtures. -/
def fixSensorSession : Session :=
  ⟨"s1", 0, ⟨"My Honda", "car1", "", none⟩,
   [("speed", .num 10)],
   [("speed", ⟨"Vehicle Speed", "km/h", "Vehicle Speed", "0d", none⟩)],
   [], "en", "metric"⟩

/-- An administratively inactive view state. -/
def fixViewInactive : ViewState := set_active fixView0 false

/-- The coordinator's initial state (coordinator.py line 28: empty
`tracked`, `cars`, `data` and `_pending_trackers`). -/
def cinit : CoordState := ⟨[], [], [], []⟩

/-- A trace fixture: the creatable-signal session delivered twice with
the sensor adder raising on the first delivery and succeeding on the
second. -/
def fixFailOps : List CoordOp :=
  [.update fixSensorSession false (fun _ => true) true (fun _ _ => false),
   .update fixSensorSession false (fun _ => true) true (fun _ _ => true)]

/-- A trace fixture: the creatable-signal session delivered twice with
an always-succeeding sensor adder. -/
def fixOkOps : List CoordOp :=
  [.update fixSensorSession false (fun _ => true) true (fun _ _ => true),
   .update fixSensorSession false (fun _ => true) true (fun _ _ => true)]

/-- A named request with an email and no vehicle id. -/
def qC1 : List (String × String) :=
  [("session", "s1"), ("eml", "a@b.com"), ("name", "My Honda")]

/-- A named request whose telemetry parameter `keng_rpm` carries the
string `NaN`. -/
def qC6 : List (String × String) :=
  [("session", "s9"), ("name", "My Honda"), ("keng_rpm", "NaN")]

/-- The meta entry the PID decoder synthesizes for the catalog code
`eng_rpm` (api.py lines 443–452). -/
def mC6 (env : Env) (lang : String) (mc : CodeMeta) : MetaEntry :=
  ⟨get_label env lang (pyor mc.fullName mc.shortName), mc.unit,
   pyor mc.fullName mc.shortName, "eng_rpm", none⟩

/-- A request whose profile name is poor (`Vehicle 42`), with the email
of the `fixView` route. -/
def qC4 : List (String × String) :=
  [("session", "s2"), ("eml", "a@b.com"), ("name", "Vehicle 42")]

/-- The route the `fixView` upsert stores for entry `e1`. -/
def routeC4 : Route :=
  ⟨"e1", some "coord1", "a@b.com", false, "en", MERGE_MODE_NONE, [], true, false⟩

/-- A request through route `eA` of `fixView2` carrying the mapped
profile name. -/
def qC5A : List (String × String) :=
  [("session", "sA"), ("eml", "a@b.com"), ("name", "Bob's Car")]

/-- A request through route `eB` of `fixView2` carrying the same mapped
profile name (different spelling, same canonical). -/
def qC5B : List (String × String) :=
  [("session", "sB"), ("eml", "b@b.com"), ("name", "bob's car")]

/-- The view state after the first `fixView2` request — route `eA` now
owns the canonical name `shared-car`. -/
def fixView2After : ViewState := (handleGet fixEnv fixView2 0 qC5A).2.1

/-- The profile Id carried by the session an accepted request decodes
to (`none` when `_parse_fields` rejects the request). -/
def parsedProfileId (env : Env) (st : ViewState) (now : ℤ) (q : List (String × String))
    (lang : String) (io : Option Bool) (mm ch : String) (rp rm : Bool) : Option String :=
  ((_parse_fields env st now q lang io mm ch rp rm).1).map (fun s => s.profile.Id)

/-- api.py lines 507–517 applied to a request: the usable (non-poor)
display name the handler resolves before deriving the profile id. -/
def effectiveNameOf (st : ViewState) (mm ch : String) (q : List (String × String)) : String :=
  (resolveDisplay (canonicalNameOf mm ch q)
    (nameFallback st (rawNameOf q) (vehicleIdOf q) (emailOf q)).1
    (sessionIdOf q)).2.1

/-- Following the claim's words (C1), for comparison with the source's
`deriveProfileId`: same priority order, but the email salt is omitted
when no vehicle-id is given (the usable-name branch suffixes the salt
only after a vehicle-id fragment). -/
def deriveProfileIdClaim (canonical_name effective_name vehicle_id session_id salt : String) :
    String :=
  if canonical_name ≠ "" then slugify canonical_name
  else if effective_name ≠ "" then
    if vehicle_id ≠ "" then
      slugify effective_name ++ "_" ++ ⟨vehicle_id.data.take 4⟩ ++
        (if salt ≠ "" then "_" ++ salt else "")
    else slugify effective_name
  else if vehicle_id ≠ "" then vehicle_id ++ (if salt ≠ "" then "_" ++ salt else "")
  else "veh_" ++ ⟨session_id.data.take 6⟩

/-! ## Lemmas about the dict model -/

/-- Known-answer check of the SHA-1 embedding (FIPS 180 test vector). -/
theorem sha1hex_abc : sha1hex "abc" = "a9993e364706816aba3e25717850c26c9cd0d89d" := by
  decide

theorem dget_nil (k : String) : dget ([] : List (String × α)) k = none := rfl

theorem dget_cons (p : String × α) (l : List (String × α)) (k : String) :
    dget (p :: l) k = if p.1 = k then some p.2 else dget l k := by
  by_cases h : p.1 = k <;> simp [dget, List.find?_cons, h]

theorem dget_dset_self (l : List (String × α)) (k : String) (v : α) :
    dget (dset l k v) k = some v := by
  induction l with
  | nil => simp [dset, dget_cons]
  | cons p rest ih =>
    by_cases h : p.1 = k <;> simp [dset, h, dget_cons, ih]

theorem dget_dset_ne (l : List (String × α)) (k k' : String) (v : α) (h : k' ≠ k) :
    dget (dset l k v) k' = dget l k' := by
  induction l with
  | nil => simp [dset, dget_cons, Ne.symm h]
  | cons p rest ih =>
    by_cases hp : p.1 = k
    · have hpk : ¬ p.1 = k' := by
        rw [hp]
        exact Ne.symm h
      simp [dset, hp, dget_cons, hpk, Ne.symm h]
    · by_cases hp' : p.1 = k' <;> simp [dset, hp, dget_cons, hp', ih, h]

theorem dget_dsetd_ne (l : List (String × α)) (k k' : String) (v : α) (h : k' ≠ k) :
    dget (dsetd l k v) k' = dget l k' := by
  induction l with
  | nil => simp [dsetd, dget_cons, Ne.symm h]
  | cons p rest ih =>
    by_cases hp : p.1 = k
    · simp [dsetd, hp]
    · by_cases hp' : p.1 = k' <;> simp [dsetd, hp, dget_cons, hp', ih, h]

theorem dget_ne_nil {l : List (String × α)} {k : String} {v : α}
    (h : dget l k = some v) : l ≠ [] := by
  intro hl
  subst hl
  simp [dget] at h

/-! ## Claims C9 and C10: activation gating of the HTTP surface -/

/-- C9: after `remove_route` removes the last remaining route the
endpoint is administratively inactive — every subsequent GET or POST
returns HTTP 404 and leaves the state untouched — and any subsequent
`upsert_route` reactivates it. -/
theorem remove_last_route_deactivates :
    ∀ st eid r, st.entry_routes = [(eid, r)] →
      (remove_route st eid).active = false ∧
      (∀ env now q, (handleGet env (remove_route st eid) now q).1 = .notFound ∧
          (handleGet env (remove_route st eid) now q).1.status = 404 ∧
          (handleGet env (remove_route st eid) now q).2.1 = remove_route st eid) ∧
      (∀ env now body q, (handlePost env (remove_route st eid) now body q).1 = .notFound ∧
          (handlePost env (remove_route st eid) now body q).2.1 = remove_route st eid) ∧
      (∀ eid2 email coord imp lang mm mnm rp rm,
        (upsert_route (remove_route st eid) eid2 email coord imp lang mm mnm rp rm).active
          = true) := by
  intro st eid r h
  have hact : (remove_route st eid).active = false := by
    have hget : dget [(eid, r)] eid = some r := by simp [dget_cons]
    have hpop : dpop ([(eid, r)] : List (String × Route)) eid = [] := by simp [dpop]
    simp only [remove_route, h, hget, hpop]
    by_cases he : r.email = "" <;> simp [he]
  refine ⟨hact, ?_, ?_, ?_⟩
  · intro env now q
    have hres : (handleGet env (remove_route st eid) now q).1 = .notFound := by
      simp [handleGet, hact]
    refine ⟨hres, ?_, by simp [handleGet, hact]⟩
    simp only [hres]
    decide
  · intro env now body q
    exact ⟨by simp [handlePost, hact], by simp [handlePost, hact]⟩
  · intro eid2 email coord imp lang mm mnm rp rm
    simp [upsert_route]

/-- C9 witness: removing the single configured route of `fixView`
deactivates the endpoint; GET then yields 404; re-upserting
reactivates. -/
theorem remove_last_route_deactivates_witness :
    (remove_route fixView "e1").active = false ∧
    (handleGet fixEnv (remove_route fixView "e1") 0 []).1 = .notFound ∧
    (upsert_route (remove_route fixView "e1") "e2" none none false "en" none none).active
      = true := by
  have h := remove_last_route_deactivates fixView "e1"
    ⟨"e1", some "coord1", "a@b.com", false, "en", "none", [], true, false⟩ (by decide)
  exact ⟨h.1, (h.2.1 fixEnv 0 []).1, h.2.2.2 "e2" none none false "en" none none true false⟩

/-- C10: the HEAD handler answers a bare 200 for every request and every
state — it never consults the active flag — while GET and POST answer
404 exactly on the inactive flag. -/
theorem head_always_ok :
    (∀ st q, handleHead st q = .emptyOk ∧ (handleHead st q).status = 200 ∧
        (handleHead st q).text = "") ∧
    (∀ st st' q q', handleHead st q = handleHead st' q') ∧
    (∀ env st now q, st.active = false → (handleGet env st now q).1 = .notFound) ∧
    (∀ env st now body q, st.active = false → (handlePost env st now body q).1 = .notFound) := by
  refine ⟨fun st q => ⟨rfl, rfl, rfl⟩, fun _ _ _ _ => rfl, ?_, ?_⟩
  · intro env st now q h
    simp [handleGet, h]
  · intro env st now body q h
    simp [handlePost, h]

/-- C10 witness: on an inactive state, HEAD still answers 200 while GET
and POST answer 404. -/
theorem head_always_ok_witness :
    handleHead fixViewInactive [] = .emptyOk ∧
    (handleGet fixEnv fixViewInactive 0 []).1 = .notFound ∧
    (handlePost fixEnv fixViewInactive 0 [] []).1 = .notFound := by
  exact ⟨(head_always_ok.1 fixViewInactive []).1,
         head_always_ok.2.2.1 fixEnv fixViewInactive 0 [] rfl,
         head_always_ok.2.2.2 fixEnv fixViewInactive 0 [] [] rfl⟩

/-! ## Claim C8: the poor-name classifier -/

theorem digit_not_ws {x : Char} (h : isAsciiDigit x = true) : isPyWs x = false := by
  simp [isAsciiDigit] at h
  simp [isPyWs]
  omega

theorem ws_not_digit {x : Char} (h : isPyWs x = true) : isAsciiDigit x = false := by
  simp [isPyWs] at h
  simp [isAsciiDigit]
  omega

/-- The maximal-munch matcher of `^\s*vehicle\s*\d+\s*$` accepts exactly
the strings that decompose as whitespace, the literal `vehicle`,
whitespace, a non-empty digit run, and whitespace. -/
theorem matchPoorRegex_iff (l : List Char) :
    matchPoorRegex l = true ↔
      ∃ a b c d, l = a ++ "vehicle".data ++ b ++ c ++ d ∧
        (∀ x ∈ a, isPyWs x = true) ∧ (∀ x ∈ b, isPyWs x = true) ∧
        c ≠ [] ∧ (∀ x ∈ c, isAsciiDigit x = true) ∧ (∀ x ∈ d, isPyWs x = true) := by
  constructor
  · intro h
    simp only [matchPoorRegex] at h
    split at h
    case isFalse => simp at h
    case isTrue htake =>
      split at h
      case isTrue => simp at h
      case isFalse hds =>
        refine ⟨l.takeWhile isPyWs,
                ((l.dropWhile isPyWs).drop 7).takeWhile isPyWs,
                (((l.dropWhile isPyWs).drop 7).dropWhile isPyWs).takeWhile isAsciiDigit,
                (((l.dropWhile isPyWs).drop 7).dropWhile isPyWs).dropWhile isAsciiDigit,
                ?_, fun x hx => List.mem_takeWhile_imp hx, fun x hx => List.mem_takeWhile_imp hx,
                hds, fun x hx => List.mem_takeWhile_imp hx,
                fun x hx => List.dropWhile_eq_nil_iff.mp (by simpa using h) x hx⟩
        have e1 := (List.takeWhile_append_dropWhile (p := isPyWs) (l := l)).symm
        have e2 : l.dropWhile isPyWs = "vehicle".data ++ (l.dropWhile isPyWs).drop 7 := by
          have e := List.take_append_drop 7 (l.dropWhile isPyWs)
          rw [htake] at e
          exact e.symm
        have e3 := (List.takeWhile_append_dropWhile (p := isPyWs)
            (l := (l.dropWhile isPyWs).drop 7)).symm
        have e4 := (List.takeWhile_append_dropWhile (p := isAsciiDigit)
            (l := ((l.dropWhile isPyWs).drop 7).dropWhile isPyWs)).symm
        conv_lhs => rw [e1, e2, e3, e4]
        simp [List.append_assoc]
  · rintro ⟨a, b, c, d, heq, ha, hb, hcne, hc, hd⟩
    obtain ⟨c0, c', rfl⟩ : ∃ c0 c', c = c0 :: c' := by
      cases c with
      | nil => exact absurd rfl hcne
      | cons c0 c' => exact ⟨c0, c', rfl⟩
    have hc0 : isAsciiDigit c0 = true := hc c0 (by simp)
    have heq' : l = a ++ ("vehicle".data ++ (b ++ (c0 :: (c' ++ d)))) := by
      simpa [List.append_assoc] using heq
    have hveh : ("vehicle".data ++ (b ++ (c0 :: (c' ++ d))))
        = 'v' :: ("ehicle".data ++ (b ++ (c0 :: (c' ++ d)))) := rfl
    have hdrop1 : l.dropWhile isPyWs = "vehicle".data ++ (b ++ (c0 :: (c' ++ d))) := by
      rw [heq', List.dropWhile_append_of_pos ha, hveh, List.dropWhile_cons]
      simp [isPyWs]
    have hdrop2 : (b ++ (c0 :: (c' ++ d))).dropWhile isPyWs = c0 :: (c' ++ d) := by
      rw [List.dropWhile_append_of_pos hb, List.dropWhile_cons]
      simp [digit_not_ws hc0]
    have htw : (c0 :: (c' ++ d)).takeWhile isAsciiDigit = c0 :: c' := by
      have e : ((c0 :: c') ++ d).takeWhile isAsciiDigit = c0 :: c' := by
        rw [List.takeWhile_append_of_pos hc]
        cases d with
        | nil => simp
        | cons d0 d' =>
          rw [List.takeWhile_cons]
          simp [ws_not_digit (hd d0 (by simp))]
      simpa [List.cons_append] using e
    have hdw : (c0 :: (c' ++ d)).dropWhile isAsciiDigit = d := by
      have e : ((c0 :: c') ++ d).dropWhile isAsciiDigit = d := by
        rw [List.dropWhile_append_of_pos hc]
        cases d with
        | nil => simp
        | cons d0 d' =>
          rw [List.dropWhile_cons]
          simp [ws_not_digit (hd d0 (by simp))]
      simpa [List.cons_append] using e
    have htake7 : ("vehicle".data ++ (b ++ (c0 :: (c' ++ d)))).take 7 = "vehicle".data :=
      List.take_left' (by decide)
    have hdrop7 : ("vehicle".data ++ (b ++ (c0 :: (c' ++ d)))).drop 7
        = b ++ (c0 :: (c' ++ d)) :=
      List.drop_left' (by decide)
    simp only [matchPoorRegex, hdrop1, htake7, hdrop7, hdrop2, htw, hdw, if_pos rfl]
    simp [hcne, List.dropWhile_eq_nil_iff.mpr hd]


/-- C8: `_is_poor_name` classifies a name as poor exactly when — after
stripping surrounding whitespace — it is empty, case-insensitively
equals the bare word `vehicle` or `véhicule`, or is `vehicle` followed
by only digits (whitespace allowed around the parts); in particular
`"Vehicle 123456"` is poor and `"My Honda"` is not. -/
theorem is_poor_name_spec :
    (∀ name : String, _is_poor_name name = true ↔ PoorNameSpec name) ∧
    _is_poor_name "Vehicle 123456" = true ∧ _is_poor_name "My Honda" = false := by
  refine ⟨?_, by decide, by decide⟩
  intro name
  by_cases h0 : name = ""
  · subst h0
    simp only [_is_poor_name, PoorNameSpec]
    constructor
    · intro _
      exact Or.inl (by decide)
    · intro _
      rfl
  · simp only [_is_poor_name, h0, if_false, PoorNameSpec]
    by_cases hs : pyStripL name.data = []
    · simp only [hs]
      constructor
      · intro _
        exact Or.inl (by simp)
      · intro _
        rfl
    · simp only [hs, if_false]
      by_cases hmem : (pyStripL name.data).map pyToLower = "vehicle".data ∨
          (pyStripL name.data).map pyToLower = "véhicule".data
      · simp only [hmem, if_true]
        rcases hmem with hm | hm
        · simp [hm]
        · simp [hm]
      · simp only [hmem, if_false]
        rw [matchPoorRegex_iff]
        push_neg at hmem
        constructor
        · intro hp
          exact Or.inr (Or.inr (Or.inr hp))
        · rintro (ht | ht | ht | hp)
          · exact absurd (List.map_eq_nil_iff.mp ht) hs
          · exact absurd ht hmem.1
          · exact absurd ht hmem.2
          · exact hp

/-! ## Claim C7: imperial speed conversion -/

/-- One conversion-loop iteration only touches the dict entries of its
own snapshot key: lookups under any other key are preserved. -/
theorem applyUnitStep_dget_ne (acc : List (String × Value) × List (String × MetaEntry))
    (entry : String × MetaEntry) (k : String) (h : entry.1 ≠ k) :
    dget (applyUnitStep acc entry).1 k = dget acc.1 k ∧
    dget (applyUnitStep acc entry).2 k = dget acc.2 k := by
  have hv : ∀ (l : List (String × Value)) v, dget (dset l entry.1 v) k = dget l k :=
    fun l v => dget_dset_ne l entry.1 k v (Ne.symm h)
  have hm : ∀ (l : List (String × MetaEntry)) v, dget (dset l entry.1 v) k = dget l k :=
    fun l v => dget_dset_ne l entry.1 k v (Ne.symm h)
  refine ⟨?_, ?_⟩ <;>
  · cases hval : dget acc.1 entry.1 with
    | none => simp [applyUnitStep, hval, ite_self]
    | some v =>
      cases v with
      | num x =>
        simp only [applyUnitStep, hval]
        split_ifs <;> simp [hv, hm]
      | str s => simp [applyUnitStep, hval, ite_self]
      | null => simp [applyUnitStep, hval, ite_self]

/-- Folding the conversion loop over snapshot entries whose keys all
differ from `k` preserves both lookups under `k`. -/
theorem foldUnit_dget_ne (k : String) :
    ∀ (L : List (String × MetaEntry)) (acc : List (String × Value) × List (String × MetaEntry)),
      (∀ p ∈ L, p.1 ≠ k) →
      dget (L.foldl applyUnitStep acc).1 k = dget acc.1 k ∧
      dget (L.foldl applyUnitStep acc).2 k = dget acc.2 k := by
  intro L
  induction L with
  | nil => intro acc _; exact ⟨rfl, rfl⟩
  | cons p rest ih =>
    intro acc hK
    have hstep := applyUnitStep_dget_ne acc p k (hK p (by simp))
    have hrest := ih (applyUnitStep acc p) (fun q hq => hK q (by simp [hq]))
    simp only [List.foldl_cons]
    exact ⟨hrest.1.trans hstep.1, hrest.2.trans hstep.2⟩

/-- Decompose a dict around the entry a successful lookup returns: the
entries before it miss the key, and — given key uniqueness — so do the
entries after it. -/
theorem dget_decomp {α : Type} (l : List (String × α)) (k : String) (v : α)
    (hnd : (l.map Prod.fst).Nodup) (h : dget l k = some v) :
    ∃ L1 L2, l = L1 ++ (k, v) :: L2 ∧ (∀ p ∈ L1, p.1 ≠ k) ∧ (∀ p ∈ L2, p.1 ≠ k) := by
  simp only [dget, Option.map_eq_some'] at h
  obtain ⟨pair, hfind, hv⟩ := h
  rw [List.find?_eq_some] at hfind
  obtain ⟨hp, L1, L2, heq, hmiss⟩ := hfind
  have hk : pair.1 = k := by simpa using hp
  have hpair : pair = (k, v) := by
    cases pair
    simp_all
  subst hpair
  refine ⟨L1, L2, heq, ?_, ?_⟩
  · intro p hp'
    have := hmiss p hp'
    simpa using this
  · intro p hp'
    rw [heq] at hnd
    simp only [List.map_append, List.map_cons] at hnd
    have h2 := hnd.of_append_right
    rw [List.nodup_cons] at h2
    intro hpk
    exact h2.1 (by simpa [← hpk] using List.mem_map_of_mem Prod.fst hp')

/-- C7: under the imperial preference, every field whose meta unit is
`"km/h"` and whose value is a (finite) number `x` is rewritten in place
to `round(x * 0.621371, 2)` with its meta unit set to `"mph"`. -/
theorem imperial_kmh_conversion
    (values : List (String × Value)) (meta : List (String × MetaEntry))
    (short : String) (m : MetaEntry) (x : ℚ)
    (hnd : (meta.map Prod.fst).Nodup)
    (hm : dget meta short = some m) (hu : m.unit = "km/h")
    (hx : dget values short = some (.num x)) :
    dget (_apply_unit_preference values meta "imperial").1 short
      = some (.num (pyRound 2 (x * (621371/1000000)))) ∧
    (dget (_apply_unit_preference values meta "imperial").2 short).map MetaEntry.unit
      = some "mph" := by
  obtain ⟨L1, L2, heq, h1, h2⟩ := dget_decomp meta short m hnd hm
  have hfold1 := foldUnit_dget_ne short L1 (values, meta) h1
  have hmid : applyUnitStep (L1.foldl applyUnitStep (values, meta)) (short, m) =
      (dset (L1.foldl applyUnitStep (values, meta)).1 short
        (.num (_round (x * (621371/1000000)) 2)),
       dset (L1.foldl applyUnitStep (values, meta)).2 short { m with unit := "mph" }) := by
    have hval : dget (L1.foldl applyUnitStep (values, meta)).1 short = some (.num x) := by
      rw [hfold1.1]
      exact hx
    have hstrip : pyStrip "km/h" = "km/h" := by decide
    have hlow : pyLower "km/h" = "km/h" := by decide
    simp only [applyUnitStep, hu, hstrip, hlow, hval]
    simp
  have hfold2 := foldUnit_dget_ne short L2
    (applyUnitStep (L1.foldl applyUnitStep (values, meta)) (short, m)) h2
  have hmain : _apply_unit_preference values meta "imperial"
      = (L1 ++ (short, m) :: L2).foldl applyUnitStep (values, meta) := by
    simp [_apply_unit_preference, heq]
  rw [hmain, List.foldl_append, List.foldl_cons]
  constructor
  · rw [hfold2.1, hmid]
    simp [dget_dset_self, _round]
  · rw [hfold2.2, hmid]
    simp [dget_dset_self]

/-- C7 witness: a `100 km/h` speed field under the imperial preference
is rewritten to `round(62.1371, 2)` mph. -/
theorem imperial_kmh_conversion_witness :
    dget (_apply_unit_preference [("spd", .num 100)]
      [("spd", ⟨"Speed", "km/h", "Vehicle Speed", "0d", none⟩)] "imperial").1 "spd"
      = some (.num (pyRound 2 (100 * (621371/1000000)))) ∧
    (dget (_apply_unit_preference [("spd", .num 100)]
      [("spd", ⟨"Speed", "km/h", "Vehicle Speed", "0d", none⟩)] "imperial").2 "spd").map
        MetaEntry.unit = some "mph" :=
  imperial_kmh_conversion [("spd", .num 100)]
    [("spd", ⟨"Speed", "km/h", "Vehicle Speed", "0d", none⟩)] "spd"
    ⟨"Speed", "km/h", "Vehicle Speed", "0d", none⟩ 100
    (by decide) rfl rfl rfl

/-! ## Claim C3: session-cache bounds -/

theorem evictExpired_sublist (c : ℤ) (l : List (String × Session)) :
    List.Sublist (evictExpired c l) l := by
  induction l with
  | nil => simp [evictExpired]
  | cons p rest ih =>
    cases p with
    | mk k s =>
      by_cases h : s.last_seen ≤ c
      · simpa [evictExpired, h] using ih.trans (List.sublist_cons_self _ _)
      · simp [evictExpired, h]

theorem mem_evictExpired (c : ℤ) (l : List (String × Session))
    (hp : l.Pairwise (fun a b => a.2.last_seen ≤ b.2.last_seen)) :
    ∀ e ∈ evictExpired c l, c < e.2.last_seen := by
  induction l with
  | nil => simp [evictExpired]
  | cons p rest ih =>
    cases p with
    | mk k s =>
      rw [List.pairwise_cons] at hp
      by_cases h : s.last_seen ≤ c
      · simpa [evictExpired, h] using ih hp.2
      · intro e he
        simp only [evictExpired, h, if_false] at he
        rcases List.mem_cons.mp he with rfl | he'
        · show c < s.last_seen
          omega
        · have h2 : s.last_seen ≤ e.2.last_seen := hp.1 e he'
          omega

theorem length_evictOverCap (m : Nat) (l : List (String × Session)) :
    (evictOverCap m l).length ≤ m := by
  simp only [evictOverCap, List.length_drop]
  omega

theorem cacheCleanup_sublist (ttl : ℤ) (m : Nat) (now : ℤ) (l : List (String × Session)) :
    List.Sublist (cacheCleanup ttl m now l) l :=
  (List.drop_sublist _ _).trans (evictExpired_sublist _ _)

/-- The cache invariant maintained by every request cycle: entries are
touch-ordered (nondecreasing timestamps), stamped no later than the
current time, newer than the TTL horizon, and at most one over the
size cap. -/
theorem cacheReach_inv (ttl : ℤ) (maxs : Nat) (httl : 0 < ttl) :
    ∀ {l : List (String × Session)} {t : ℤ}, cacheReach ttl maxs l t →
      l.Pairwise (fun a b => a.2.last_seen ≤ b.2.last_seen) ∧
      (∀ e ∈ l, e.2.last_seen ≤ t) ∧
      (∀ e ∈ l, t - ttl < e.2.last_seen) ∧
      l.length ≤ maxs + 1 := by
  intro l t h
  induction h with
  | init t => simp
  | @step l0 t0 tReq s hmono hstamp hprev ih =>
    obtain ⟨hpair, hle, hfresh, _⟩ := ih
    have hsub : List.Sublist (cacheCleanup ttl maxs tReq l0) l0 := cacheCleanup_sublist _ _ _ _
    have hpc : (cacheCleanup ttl maxs tReq l0).Pairwise
        (fun a b => a.2.last_seen ≤ b.2.last_seen) := List.Pairwise.sublist hsub hpair
    have hlec : ∀ e ∈ cacheCleanup ttl maxs tReq l0, e.2.last_seen ≤ tReq := by
      intro e he
      exact le_trans (hle e (hsub.subset he)) hmono
    have hfreshc : ∀ e ∈ cacheCleanup ttl maxs tReq l0, tReq - ttl < e.2.last_seen := by
      intro e he
      have he' : e ∈ evictExpired (tReq - ttl) l0 :=
        (List.drop_sublist _ _).subset he
      exact mem_evictExpired _ _ hpair e he'
    have hlenc : (cacheCleanup ttl maxs tReq l0).length ≤ maxs := length_evictOverCap _ _
    have hdsub : List.Sublist (dpop (cacheCleanup ttl maxs tReq l0) s.id)
        (cacheCleanup ttl maxs tReq l0) := List.filter_sublist _
    refine ⟨?_, ?_, ?_, ?_⟩
    · rw [cacheUpsert, List.pairwise_append]
      refine ⟨List.Pairwise.sublist hdsub hpc, by simp, ?_⟩
      intro a ha b hb
      simp only [List.mem_singleton] at hb
      subst hb
      simpa [hstamp] using hlec a (hdsub.subset ha)
    · intro e he
      rcases List.mem_append.mp he with he' | he'
      · exact hlec e (hdsub.subset he')
      · simp only [List.mem_singleton] at he'
        subst he'
        simp [hstamp]
    · intro e he
      rcases List.mem_append.mp he with he' | he'
      · exact hfreshc e (hdsub.subset he')
      · simp only [List.mem_singleton] at he'
        subst he'
        simp only [hstamp]
        omega
    · rw [cacheUpsert]
      have := List.length_filter_le (fun p => p.1 ≠ s.id) (cacheCleanup ttl maxs tReq l0)
      simp only [List.length_append, List.length_singleton]
      have hd : (dpop (cacheCleanup ttl maxs tReq l0) s.id).length
          ≤ (cacheCleanup ttl maxs tReq l0).length := List.length_filter_le _ _
      omega

/-- Two fresh requests with distinct session ids, at `max_sessions = 1`
and `ttl = 60`, reach a two-entry cache state. -/
theorem cache_two_entries_reachable :
    cacheReach 60 1 [("a", fixSession "a" 0), ("b", fixSession "b" 0)] 0 := by
  have h1 : cacheReach 60 1 [] 0 := .init 0
  have h2 := cacheReach.step 0 (fixSession "a" 0) le_rfl rfl h1
  have e2 : cacheUpsert (cacheCleanup 60 1 0 []) (fixSession "a" 0)
      = [("a", fixSession "a" 0)] := by decide
  rw [e2] at h2
  have h3 := cacheReach.step 0 (fixSession "b" 0) le_rfl rfl h2
  have e3 : cacheUpsert (cacheCleanup 60 1 0 [("a", fixSession "a" 0)]) (fixSession "b" 0)
      = [("a", fixSession "a" 0), ("b", fixSession "b" 0)] := by decide
  rw [e3] at h3
  exact h3

/-- C3 counterexample: with `max_sessions = 1` and `ttl = 60`, two
fresh requests with distinct session ids leave the cache holding two
entries — more than `max_sessions` — in a reachable state. -/
theorem session_cache_overflow_counterexample :
    cacheReach 60 1 [("a", fixSession "a" 0), ("b", fixSession "b" 0)] 0 ∧
    ¬ ([("a", fixSession "a" 0), ("b", fixSession "b" 0)].length ≤ 1) :=
  ⟨cache_two_entries_reachable, by decide⟩

/-- C3 (amended): in every reachable state of the session cache
(cleanup before each request, then upsert of the freshly stamped
session) the cache holds at most `max_sessions + 1` entries — the upsert
may exceed the cap by one until the next cleanup — and no entry is more
than `ttl_seconds` older than the latest request; after each cleanup
the size is back at or under `max_sessions`. -/
theorem session_cache_bounds (ttl : ℤ) (maxs : Nat) (l : List (String × Session)) (t : ℤ)
    (httl : 0 < ttl) (h : cacheReach ttl maxs l t) :
    l.length ≤ maxs + 1 ∧
    (∀ e ∈ l, t - ttl < e.2.last_seen ∧ e.2.last_seen ≤ t) ∧
    (∀ now, (cacheCleanup ttl maxs now l).length ≤ maxs) := by
  obtain ⟨_, hle, hfresh, hlen⟩ := cacheReach_inv ttl maxs httl h
  exact ⟨hlen, fun e he => ⟨hfresh e he, hle e he⟩, fun now => length_evictOverCap _ _⟩

/-- C3 witness: the two-entry reachable state of the counterexample
satisfies the amended bounds. -/
theorem session_cache_bounds_witness :
    (0 : ℤ) < 60 ∧
    ([("a", fixSession "a" 0), ("b", fixSession "b" 0)].length ≤ 1 + 1 ∧
     (∀ e ∈ [("a", fixSession "a" 0), ("b", fixSession "b" 0)],
        (0 : ℤ) - 60 < e.2.last_seen ∧ e.2.last_seen ≤ 0) ∧
     (∀ now, (cacheCleanup 60 1 now [("a", fixSession "a" 0), ("b", fixSession "b" 0)]).length
        ≤ 1)) := by
  exact ⟨by decide, session_cache_bounds 60 1 _ 0 (by decide) cache_two_entries_reachable⟩

/-! ## Claim C2: per-(vehicle, signal) callback deduplication -/

theorem contains_iff_mem {l : List String} {x : String} : l.contains x = true ↔ x ∈ l := by
  simp [List.contains_eq_any_beq, List.any_eq_true, eq_comm]

theorem key_inj {car a b : String} (h : car ++ ":" ++ a = car ++ ":" ++ b) : a = b := by
  have hd := congrArg String.data h
  simp only [String.data_append] at hd
  exact String.ext (List.append_cancel_left hd)

theorem successCount_append (c s : String) (a b : List (String × String × Bool)) :
    successCount c s (a ++ b) = successCount c s a + successCount c s b := by
  simp [successCount, List.filter_append]

theorem successCount_singleton (c s a b : String) (f : Bool) :
    successCount c s [(a, b, f)] = if a = c ∧ b = s ∧ f = true then 1 else 0 := by
  by_cases h : a = c ∧ b = s ∧ f = true <;> simp [successCount, List.filter, h]

theorem sensorLoop_tracked_mono (car : String) (sok : String → String → Bool) :
    ∀ (metas : List (String × MetaEntry)) (acc : List String × List (String × String × Bool))
      (x : String), x ∈ acc.1 → x ∈ (sensorLoop car sok acc metas).1 := by
  intro metas
  induction metas with
  | nil => intro acc x hx; exact hx
  | cons p rest ih =>
    intro acc x hx
    cases p with
    | mk s1 m1 =>
      simp only [sensorLoop]
      by_cases h1 : ¬ _is_creatable_sensor s1 m1 = true
      · rw [if_pos h1]
        exact ih acc x hx
      · rw [if_neg h1]
        by_cases h2 : acc.1.contains (car ++ ":" ++ s1) = true
        · rw [if_pos h2]
          exact ih acc x hx
        · rw [if_neg h2]
          by_cases h3 : sok car s1 = true
          · rw [if_pos h3]
            exact ih _ x (List.mem_cons.2 (Or.inr hx))
          · rw [if_neg h3]
            exact ih _ x hx

theorem sensorLoop_calls_mono (car : String) (sok : String → String → Bool) :
    ∀ (metas : List (String × MetaEntry)) (acc : List String × List (String × String × Bool))
      (x : String × String × Bool), x ∈ acc.2 → x ∈ (sensorLoop car sok acc metas).2 := by
  intro metas
  induction metas with
  | nil => intro acc x hx; exact hx
  | cons p rest ih =>
    intro acc x hx
    cases p with
    | mk s1 m1 =>
      simp only [sensorLoop]
      by_cases h1 : ¬ _is_creatable_sensor s1 m1 = true
      · rw [if_pos h1]
        exact ih acc x hx
      · rw [if_neg h1]
        by_cases h2 : acc.1.contains (car ++ ":" ++ s1) = true
        · rw [if_pos h2]
          exact ih acc x hx
        · rw [if_neg h2]
          by_cases h3 : sok car s1 = true
          · rw [if_pos h3]
            exact ih _ x (by simp [hx])
          · rw [if_neg h3]
            exact ih _ x (by simp [hx])

theorem sensorLoop_success_bound (c s car : String) (sok : String → String → Bool) :
    ∀ (metas : List (String × MetaEntry)) (tr : List String)
      (calls0 : List (String × String × Bool)),
      successCount c s (sensorLoop car sok (tr, calls0) metas).2 ≤
        successCount c s calls0 + (if (c ++ ":" ++ s) ∈ tr then 0 else 1) ∧
      (successCount c s calls0 < successCount c s (sensorLoop car sok (tr, calls0) metas).2 →
        (c ++ ":" ++ s) ∈ (sensorLoop car sok (tr, calls0) metas).1) := by
  intro metas
  induction metas with
  | nil =>
    intro tr calls0
    constructor
    · by_cases hk : (c ++ ":" ++ s) ∈ tr <;> simp [sensorLoop, hk]
    · intro h
      simp only [sensorLoop] at h
      omega
  | cons p rest ih =>
    intro tr calls0
    cases p with
    | mk s1 m1 =>
      simp only [sensorLoop]
      by_cases h1 : ¬ _is_creatable_sensor s1 m1 = true
      · rw [if_pos h1]
        exact ih tr calls0
      · rw [if_neg h1]
        by_cases h2 : (tr : List String).contains (car ++ ":" ++ s1) = true
        · rw [if_pos h2]
          exact ih tr calls0
        · rw [if_neg h2]
          have hknotin : (car ++ ":" ++ s1) ∉ tr := by
            intro hmem
            exact h2 (contains_iff_mem.mpr hmem)
          by_cases h3 : sok car s1 = true
          · rw [if_pos h3]
            by_cases hpair : car = c ∧ s1 = s
            · obtain ⟨hca, hs1⟩ := hpair
              rw [hca, hs1] at hknotin
              have hrec := ih ((car ++ ":" ++ s1) :: tr) (calls0 ++ [(car, s1, true)])
              have hcount : successCount c s (calls0 ++ [(car, s1, true)])
                  = successCount c s calls0 + 1 := by
                rw [successCount_append, successCount_singleton, hca, hs1]
                simp
              have hmemc : (c ++ ":" ++ s) ∈ (car ++ ":" ++ s1) :: tr := by
                rw [hca, hs1]
                simp
              have hb := hrec.1
              rw [hcount, if_pos hmemc] at hb
              constructor
              · rw [if_neg hknotin]
                omega
              · intro _
                refine sensorLoop_tracked_mono car sok rest _ _ ?_
                rw [hca, hs1]
                simp
            · have hcount : successCount c s (calls0 ++ [(car, s1, true)])
                  = successCount c s calls0 := by
                rw [successCount_append, successCount_singleton]
                have hno : ¬ (car = c ∧ s1 = s ∧ (true : Bool) = true) := by
                  intro hand
                  exact hpair ⟨hand.1, hand.2.1⟩
                rw [if_neg hno]
                omega
              have hrec := ih ((car ++ ":" ++ s1) :: tr) (calls0 ++ [(car, s1, true)])
              have hb := hrec.1
              have hb2 := hrec.2
              rw [hcount] at hb hb2
              refine ⟨?_, hb2⟩
              by_cases hk : (c ++ ":" ++ s) ∈ tr
              · have hk1 : (c ++ ":" ++ s) ∈ (car ++ ":" ++ s1) :: tr := by simp [hk]
                rw [if_pos hk1] at hb
                rw [if_pos hk]
                omega
              · rw [if_neg hk]
                by_cases hk1 : (c ++ ":" ++ s) ∈ (car ++ ":" ++ s1) :: tr
                · rw [if_pos hk1] at hb
                  omega
                · rw [if_neg hk1] at hb
                  omega
          · rw [if_neg h3]
            have hcount : successCount c s (calls0 ++ [(car, s1, false)])
                = successCount c s calls0 := by
              rw [successCount_append, successCount_singleton]
              simp
            have hb := (ih tr (calls0 ++ [(car, s1, false)])).1
            have hb2 := (ih tr (calls0 ++ [(car, s1, false)])).2
            rw [hcount] at hb hb2
            exact ⟨hb, hb2⟩

theorem dget_decomp_first {α : Type} (l : List (String × α)) (k : String) (v : α)
    (h : dget l k = some v) :
    ∃ L1 L2, l = L1 ++ (k, v) :: L2 ∧ ∀ p ∈ L1, p.1 ≠ k := by
  simp only [dget, Option.map_eq_some'] at h
  obtain ⟨pair, hfind, hv⟩ := h
  rw [List.find?_eq_some] at hfind
  obtain ⟨hp, L1, L2, heq, hmiss⟩ := hfind
  have hk : pair.1 = k := by simpa using hp
  have hpair : pair = (k, v) := by
    cases pair
    simp_all
  subst hpair
  refine ⟨L1, L2, heq, fun p hp' => by simpa using hmiss p hp'⟩

theorem trackerPhase_tracked_mono (st1 : CoordState) (car : String)
    (vals : List (String × Value)) (hta : Bool) (tok : String → Bool) (x : String)
    (hx : x ∈ st1.tracked) : x ∈ (trackerPhase st1 car vals hta tok).1.tracked := by
  unfold trackerPhase
  split_ifs <;> (try simp [hx])
  all_goals (split <;> simp [hx])

theorem trackerPhase_tracked_cases (st1 : CoordState) (car : String)
    (vals : List (String × Value)) (hta : Bool) (tok : String → Bool) :
    (trackerPhase st1 car vals hta tok).1.tracked = st1.tracked ∨
    (trackerPhase st1 car vals hta tok).1.tracked = (car ++ ":" ++ ENTITY_GPS) :: st1.tracked := by
  unfold trackerPhase
  split_ifs <;> (try simp)
  all_goals (split <;> simp)

theorem backfillStep_tracked_mono (acc : List String × List String) (p : String × Session)
    (x : String) (hx : x ∈ acc.1) : x ∈ (backfillStep acc p).1 := by
  unfold backfillStep
  split_ifs <;> (try simp [hx])
  all_goals (split <;> simp [hx])

theorem foldl_backfill_tracked_mono (x : String) :
    ∀ (cars : List (String × Session)) (acc : List String × List String),
      x ∈ acc.1 → x ∈ (cars.foldl backfillStep acc).1 := by
  intro cars
  induction cars with
  | nil => intro acc hx; exact hx
  | cons p rest ih =>
    intro acc hx
    exact ih (backfillStep acc p) (backfillStep_tracked_mono acc p x hx)

theorem tryCreate_tracked_mono (st : CoordState) (hta : Bool) (x : String)
    (hx : x ∈ st.tracked) : x ∈ (tryCreateAllTrackers st hta).1.tracked := by
  unfold tryCreateAllTrackers
  split_ifs with h
  · exact foldl_backfill_tracked_mono x st.cars (st.tracked, []) hx
  · exact hx

theorem backfillPhase_tracked_mono (st3 : CoordState) (hta : Bool) (x : String)
    (hx : x ∈ st3.tracked) : x ∈ (backfillPhase st3 hta).1.tracked := by
  unfold backfillPhase
  split_ifs with h
  · exact tryCreate_tracked_mono st3 hta x hx
  · exact hx

/-- One `update_from_session` call: the tracked set only grows, the
sensor callback succeeds at most once for a given pair (and not at all
when the pair is already tracked), and a success marks the pair
tracked. -/
theorem update_step_props (st : CoordState) (session : Session) (hta : Bool)
    (tok : String → Bool) (hsa : Bool) (sok : String → String → Bool) (c s : String) :
    (∀ x ∈ st.tracked, x ∈ (update_from_session st session hta tok hsa sok).1.tracked) ∧
    successCount c s (update_from_session st session hta tok hsa sok).2.sensorCalls ≤
      (if (c ++ ":" ++ s) ∈ st.tracked then 0 else 1) ∧
    (0 < successCount c s (update_from_session st session hta tok hsa sok).2.sensorCalls →
      (c ++ ":" ++ s) ∈ (update_from_session st session hta tok hsa sok).1.tracked) := by
  have hT2mono : ∀ x ∈ st.tracked,
      x ∈ (trackerPhase (updSt1 st session) (carIdOf session) (nulledValues session)
        hta tok).1.tracked := by
    intro x hx
    exact trackerPhase_tracked_mono _ _ _ hta tok x hx
  have hsens : ∀ x ∈ (updSensorRes st session hta tok hsa sok).1,
      x ∈ (update_from_session st session hta tok hsa sok).1.tracked := by
    intro x hx
    exact backfillPhase_tracked_mono _ hta x hx
  have hcalls : (update_from_session st session hta tok hsa sok).2.sensorCalls
      = (updSensorRes st session hta tok hsa sok).2 := rfl
  have hmemS : ∀ x ∈ st.tracked, x ∈ (updSensorRes st session hta tok hsa sok).1 := by
    intro x hx
    unfold updSensorRes
    by_cases hh : hsa = true
    · rw [if_pos hh]
      exact sensorLoop_tracked_mono _ _ _ _ x (hT2mono x hx)
    · rw [if_neg hh]
      exact hT2mono x hx
  refine ⟨fun x hx => hsens x (hmemS x hx), ?_, ?_⟩
  · rw [hcalls]
    unfold updSensorRes
    by_cases hh : hsa = true
    · rw [if_pos hh]
      have hb := (sensorLoop_success_bound c s (carIdOf session) sok
        (sessionStored session).meta
        (trackerPhase (updSt1 st session) (carIdOf session) (nulledValues session)
          hta tok).1.tracked []).1
      have h0 : successCount c s ([] : List (String × String × Bool)) = 0 := rfl
      rw [h0] at hb
      by_cases hk : (c ++ ":" ++ s) ∈ st.tracked
      · have hkT := hT2mono _ hk
        rw [if_pos hkT] at hb
        rw [if_pos hk]
        omega
      · rw [if_neg hk]
        by_cases hkT : (c ++ ":" ++ s) ∈ (trackerPhase (updSt1 st session) (carIdOf session)
            (nulledValues session) hta tok).1.tracked
        · rw [if_pos hkT] at hb
          omega
        · rw [if_neg hkT] at hb
          omega
    · rw [if_neg hh]
      show successCount c s ([] : List (String × String × Bool)) ≤ _
      by_cases hk : (c ++ ":" ++ s) ∈ st.tracked <;> simp [successCount, hk]
  · intro hpos
    rw [hcalls] at hpos
    apply hsens
    unfold updSensorRes at hpos ⊢
    by_cases hh : hsa = true
    · rw [if_pos hh] at hpos ⊢
      have hb := (sensorLoop_success_bound c s (carIdOf session) sok
        (sessionStored session).meta
        (trackerPhase (updSt1 st session) (carIdOf session) (nulledValues session)
          hta tok).1.tracked []).2
      exact hb (by simpa using hpos)
    · rw [if_neg hh] at hpos
      simp [successCount] at hpos

theorem mem_success_pos {c s : String} {calls : List (String × String × Bool)}
    (h : (c, s, true) ∈ calls) : 0 < successCount c s calls := by
  have hf : (c, s, true) ∈ calls.filter (fun t => t.1 = c ∧ t.2.1 = s ∧ t.2.2 = true) :=
    List.mem_filter.mpr ⟨h, by simp⟩
  exact List.length_pos.mpr (List.ne_nil_of_mem hf)

theorem sensorLoop_invokes (c s : String) (sok : String → String → Bool)
    (hsok : sok c s = true) :
    ∀ (metas : List (String × MetaEntry)) (tr : List String)
      (calls : List (String × String × Bool)),
      (c ++ ":" ++ s) ∉ tr →
      (∃ m, (s, m) ∈ metas ∧ _is_creatable_sensor s m = true) →
      (c, s, true) ∈ (sensorLoop c sok (tr, calls) metas).2 := by
  intro metas
  induction metas with
  | nil =>
    intro tr calls _ hex
    obtain ⟨m, hm, _⟩ := hex
    simp at hm
  | cons p rest ih =>
    intro tr calls hkey hex
    obtain ⟨m, hm, hcre⟩ := hex
    cases p with
    | mk s1 m1 =>
      simp only [sensorLoop]
      by_cases h1 : ¬ _is_creatable_sensor s1 m1 = true
      · rw [if_pos h1]
        apply ih tr calls hkey
        refine ⟨m, ?_, hcre⟩
        rcases List.mem_cons.mp hm with heq | hr
        · exfalso
          have hs1 : s = s1 := congrArg Prod.fst heq
          have hm1 : m = m1 := congrArg Prod.snd heq
          rw [hs1, hm1] at hcre
          exact h1 hcre
        · exact hr
      · rw [if_neg h1]
        by_cases h2 : (tr : List String).contains (c ++ ":" ++ s1) = true
        · rw [if_pos h2]
          have hne : s1 ≠ s := by
            intro he
            rw [he] at h2
            exact hkey (contains_iff_mem.mp h2)
          apply ih tr calls hkey
          refine ⟨m, ?_, hcre⟩
          rcases List.mem_cons.mp hm with heq | hr
          · exact absurd (congrArg Prod.fst heq).symm hne
          · exact hr
        · rw [if_neg h2]
          by_cases h3 : sok c s1 = true
          · rw [if_pos h3]
            by_cases hss : s1 = s
            · subst hss
              exact sensorLoop_calls_mono c sok rest _ (c, s1, true) (by simp)
            · apply ih ((c ++ ":" ++ s1) :: tr) (calls ++ [(c, s1, true)]) ?_ ?_
              · intro hk
                rcases List.mem_cons.mp hk with he | ht
                · exact hss (key_inj he).symm
                · exact hkey ht
              · refine ⟨m, ?_, hcre⟩
                rcases List.mem_cons.mp hm with heq | hr
                · exact absurd (congrArg Prod.fst heq).symm hss
                · exact hr
          · rw [if_neg h3]
            by_cases hss : s1 = s
            · subst hss
              exact absurd hsok h3
            · apply ih tr (calls ++ [(c, s1, false)]) hkey
              refine ⟨m, ?_, hcre⟩
              rcases List.mem_cons.mp hm with heq | hr
              · exact absurd (congrArg Prod.fst heq).symm hss
              · exact hr

theorem update_invokes (st : CoordState) (session : Session) (hta : Bool)
    (tok : String → Bool) (sok : String → String → Bool) (c s : String) (m : MetaEntry)
    (hc : carIdOf session = c) (hs : s ≠ ENTITY_GPS)
    (hsok : sok c s = true)
    (hkey : (c ++ ":" ++ s) ∉ st.tracked)
    (hm : (s, m) ∈ session.meta) (hcre : _is_creatable_sensor s m = true) :
    (c, s, true) ∈ (update_from_session st session hta tok true sok).2.sensorCalls := by
  subst hc
  have hcalls : (update_from_session st session hta tok true sok).2.sensorCalls
      = (updSensorRes st session hta tok true sok).2 := rfl
  rw [hcalls]
  unfold updSensorRes
  rw [if_pos rfl]
  have hT1 : (updSt1 st session).tracked = st.tracked := rfl
  have hkey2 : (carIdOf session ++ ":" ++ s) ∉
      (trackerPhase (updSt1 st session) (carIdOf session) (nulledValues session)
        hta tok).1.tracked := by
    rcases trackerPhase_tracked_cases (updSt1 st session) (carIdOf session)
        (nulledValues session) hta tok with hcase | hcase
    · rw [hcase, hT1]
      exact hkey
    · rw [hcase, hT1]
      intro hk
      rcases List.mem_cons.mp hk with he | ht
      · exact hs (key_inj he)
      · exact hkey ht
  exact sensorLoop_invokes (carIdOf session) s sok hsok
    (sessionStored session).meta _ [] hkey2 ⟨m, hm, hcre⟩

theorem forget_purges (st : CoordState) (c s : String) :
    (c ++ ":" ++ s) ∉ (forget_vehicle st c).tracked := by
  intro hmem
  have h2 := (List.mem_filter.mp hmem).2
  have hpre : (c ++ ":").data.isPrefixOf (c ++ ":" ++ s).data = true := by
    rw [List.isPrefixOf_iff_prefix]
    exact ⟨s.data, (String.data_append (c ++ ":") s).symm⟩
  simp [hpre] at h2

theorem runCoordOps_success_bound (c s : String) :
    ∀ (ops : List CoordOp) (st : CoordState),
      (∀ op ∈ ops, op.isUpdate = true) →
      successCount c s (runCoordOps st ops).2 ≤
        (if (c ++ ":" ++ s) ∈ st.tracked then 0 else 1) := by
  intro ops
  induction ops with
  | nil =>
    intro st _
    show successCount c s [] ≤ _
    have h0 : successCount c s [] = 0 := rfl
    rw [h0]
    exact Nat.zero_le _
  | cons op rest ih =>
    intro st hops
    have hop : op.isUpdate = true := hops op (List.mem_cons_self op rest)
    have hrest : ∀ o ∈ rest, o.isUpdate = true :=
      fun o ho => hops o (List.mem_cons_of_mem op ho)
    cases op with
    | forget k => simp [CoordOp.isUpdate] at hop
    | update sess hta tok hsa sok =>
      have hrun : (runCoordOps st (CoordOp.update sess hta tok hsa sok :: rest)).2
          = (update_from_session st sess hta tok hsa sok).2.sensorCalls
            ++ (runCoordOps (update_from_session st sess hta tok hsa sok).1 rest).2 := rfl
      rw [hrun, successCount_append]
      have hstep := update_step_props st sess hta tok hsa sok c s
      have h1 := hstep.2.1
      have h2 := hstep.2.2
      have hih := ih (update_from_session st sess hta tok hsa sok).1 hrest
      by_cases hmem : (c ++ ":" ++ s) ∈ st.tracked
      · rw [if_pos hmem] at h1 ⊢
        have hmem2 := hstep.1 _ hmem
        rw [if_pos hmem2] at hih
        omega
      · rw [if_neg hmem] at h1 ⊢
        by_cases hz : successCount c s
            (update_from_session st sess hta tok hsa sok).2.sensorCalls = 0
        · rw [hz]
          by_cases hm2 : (c ++ ":" ++ s) ∈
              (update_from_session st sess hta tok hsa sok).1.tracked
          · rw [if_pos hm2] at hih
            omega
          · rw [if_neg hm2] at hih
            omega
        · have hmem2 := h2 (Nat.pos_of_ne_zero hz)
          rw [if_pos hmem2] at hih
          omega

/-- C2: across a trace of `update_from_session` deliveries starting
from a state where a (vehicle, signal) pair is untracked, the
sensor-adder callback SUCCEEDS at most once for that pair (the source
marks the pair tracked only after the callback returns without
raising, so a raising invocation is retried on the next delivery and
the raw invocation count can exceed one — see the counterexample);
`forget_vehicle` purges the pair's marker, and the next accepted
session for that identity carrying the signal as a creatable sensor
triggers a successful invocation again. -/
theorem sensor_callback_dedup (st : CoordState) (c s : String) (ops : List CoordOp)
    (hups : ∀ op ∈ ops, op.isUpdate = true)
    (hkey : (c ++ ":" ++ s) ∉ st.tracked) :
    successCount c s (runCoordOps st ops).2 ≤ 1 ∧
    (c ++ ":" ++ s) ∉ (forget_vehicle st c).tracked ∧
    (∀ (session : Session) (hta : Bool) (tok : String → Bool)
       (sok : String → String → Bool) (m : MetaEntry),
      carIdOf session = c → s ≠ ENTITY_GPS → sok c s = true →
      (s, m) ∈ session.meta → _is_creatable_sensor s m = true →
      0 < successCount c s
        (update_from_session (forget_vehicle st c) session hta tok true sok).2.sensorCalls) := by
  refine ⟨?_, forget_purges st c s, ?_⟩
  · have h := runCoordOps_success_bound c s ops st hups
    rw [if_neg hkey] at h
    exact h
  · intro session hta tok sok m hc hs hsok hm hcre
    exact mem_success_pos
      (update_invokes (forget_vehicle st c) session hta tok sok c s m hc hs hsok
        (forget_purges st c s) hm hcre)

/-- C2 witness: concrete run of the dedup theorem — from the fresh
coordinator, two deliveries of the same session with a working adder
produce at most one successful `speed` invocation; after
`forget_vehicle "car1"` the marker is gone and redelivery succeeds
again. -/
theorem sensor_callback_dedup_witness :
    successCount "car1" "speed" (runCoordOps cinit fixOkOps).2 ≤ 1 ∧
    ("car1" ++ ":" ++ "speed") ∉ (forget_vehicle cinit "car1").tracked ∧
    0 < successCount "car1" "speed"
      (update_from_session (forget_vehicle cinit "car1") fixSensorSession false
        (fun _ => true) true (fun _ _ => true)).2.sensorCalls := by
  have h := sensor_callback_dedup cinit "car1" "speed" fixOkOps
    (by
      intro op hop
      rcases List.mem_cons.mp hop with he | hop2
      · rw [he]; rfl
      · rcases List.mem_cons.mp hop2 with he | hop3
        · rw [he]; rfl
        · simp at hop3)
    (by simp [cinit])
  exact ⟨h.1, h.2.1,
    h.2.2 fixSensorSession false (fun _ => true) (fun _ _ => true)
      ⟨"Vehicle Speed", "km/h", "Vehicle Speed", "0d", none⟩
      (by decide) (by decide) rfl (by decide) (by decide)⟩

/-- C2 counterexample: the claim says the callback is INVOKED at most
once per pair, but a raising invocation does not mark the pair tracked
(coordinator.py lines 153–159), so redelivery invokes the callback
again: with the adder raising on the first delivery, two deliveries
record two invocations for `("car1", "speed")`. -/
theorem sensor_callback_dedup_counterexample :
    1 < callCount "car1" "speed" (runCoordOps cinit fixFailOps).2 := by decide

theorem parse_fields_id (env : Env) (st : ViewState) (now : ℤ) (q : List (String × String))
    (lang : String) (io : Option Bool) (mm ch : String) (rp rm : Bool)
    (h : ((_parse_fields env st now q lang io mm ch rp rm).1).isSome = true) :
    parsedProfileId env st now q lang io mm ch rp rm
      = some (deriveProfileId (canonicalNameOf mm ch q) (effectiveNameOf st mm ch q)
          (vehicleIdOf q) (sessionIdOf q)
          (saltOf (emailOf q) (canonicalNameOf mm ch q))) := by
  unfold parsedProfileId effectiveNameOf rawNameOf emailOf sessionIdOf vehicleIdOf
  simp only [_parse_fields] at h ⊢
  split at h
  · simp at h
  · rename_i h1
    rw [if_neg h1]
    split at h
    · simp at h
    · rename_i h2
      rw [if_neg h2]
      split at h
      · simp at h
      · rename_i h3
        rw [if_neg h3]
        simp

/-- C1: for every request `_parse_fields` accepts, the profile Id
follows the priority order — canonical identity present: slug of the
canonical name; else usable display name with a vehicle-id: its slug,
the first 4 characters of the vehicle-id, and the 4-hex email salt;
else usable display name without a vehicle-id: its slug plus the email
salt (the salt is NOT omitted, correcting the claim); else vehicle-id
plus the salt; else `veh_` plus the first 6 characters of the session
id. -/
theorem profile_id_priority (env : Env) (st : ViewState) (now : ℤ) (q : List (String × String))
    (lang : String) (io : Option Bool) (mm ch : String) (rp rm : Bool)
    (h : ((_parse_fields env st now q lang io mm ch rp rm).1).isSome = true) :
    (canonicalNameOf mm ch q ≠ "" →
      parsedProfileId env st now q lang io mm ch rp rm
        = some (slugify (canonicalNameOf mm ch q))) ∧
    (canonicalNameOf mm ch q = "" → effectiveNameOf st mm ch q ≠ "" → vehicleIdOf q ≠ "" →
      parsedProfileId env st now q lang io mm ch rp rm
        = some (slugify (effectiveNameOf st mm ch q) ++ "_" ++
            (⟨(vehicleIdOf q).data.take 4⟩ : String) ++
            (if saltOf (emailOf q) (canonicalNameOf mm ch q) ≠ ""
             then "_" ++ saltOf (emailOf q) (canonicalNameOf mm ch q) else ""))) ∧
    (canonicalNameOf mm ch q = "" → effectiveNameOf st mm ch q ≠ "" → vehicleIdOf q = "" →
      parsedProfileId env st now q lang io mm ch rp rm
        = some (slugify (effectiveNameOf st mm ch q) ++
            (if saltOf (emailOf q) (canonicalNameOf mm ch q) ≠ ""
             then "_" ++ saltOf (emailOf q) (canonicalNameOf mm ch q) else ""))) ∧
    (canonicalNameOf mm ch q = "" → effectiveNameOf st mm ch q = "" → vehicleIdOf q ≠ "" →
      parsedProfileId env st now q lang io mm ch rp rm
        = some (vehicleIdOf q ++
            (if saltOf (emailOf q) (canonicalNameOf mm ch q) ≠ ""
             then "_" ++ saltOf (emailOf q) (canonicalNameOf mm ch q) else ""))) ∧
    (canonicalNameOf mm ch q = "" → effectiveNameOf st mm ch q = "" → vehicleIdOf q = "" →
      parsedProfileId env st now q lang io mm ch rp rm
        = some ("veh_" ++ (⟨(sessionIdOf q).data.take 6⟩ : String))) := by
  have hid := parse_fields_id env st now q lang io mm ch rp rm h
  refine ⟨?_, ?_, ?_, ?_, ?_⟩
  · intro hc
    rw [hid]
    unfold deriveProfileId
    rw [if_pos hc]
  · intro hc he hv
    rw [hid]
    unfold deriveProfileId
    rw [if_neg (by simp [hc]), if_pos he, if_pos hv]
  · intro hc he hv
    rw [hid]
    unfold deriveProfileId
    rw [if_neg (by simp [hc]), if_pos he, if_neg (by simp [hv])]
  · intro hc he hv
    rw [hid]
    unfold deriveProfileId
    rw [if_neg (by simp [hc]), if_neg (by simp [he]), if_pos hv]
  · intro hc he hv
    rw [hid]
    unfold deriveProfileId
    rw [if_neg (by simp [hc]), if_neg (by simp [he]), if_neg (by simp [hv])]

/-- C1 witness: concrete run of the priority theorem on a named request
with an email and no vehicle id (`qC1`). -/
theorem profile_id_priority_witness :
    (canonicalNameOf MERGE_MODE_NONE "" qC1 ≠ "" →
      parsedProfileId fixEnv fixView0 0 qC1 "en" none MERGE_MODE_NONE "" true false
        = some (slugify (canonicalNameOf MERGE_MODE_NONE "" qC1))) ∧
    (canonicalNameOf MERGE_MODE_NONE "" qC1 = "" →
      effectiveNameOf fixView0 MERGE_MODE_NONE "" qC1 ≠ "" → vehicleIdOf qC1 ≠ "" →
      parsedProfileId fixEnv fixView0 0 qC1 "en" none MERGE_MODE_NONE "" true false
        = some (slugify (effectiveNameOf fixView0 MERGE_MODE_NONE "" qC1) ++ "_" ++
            (⟨(vehicleIdOf qC1).data.take 4⟩ : String) ++
            (if saltOf (emailOf qC1) (canonicalNameOf MERGE_MODE_NONE "" qC1) ≠ ""
             then "_" ++ saltOf (emailOf qC1) (canonicalNameOf MERGE_MODE_NONE "" qC1) else ""))) ∧
    (canonicalNameOf MERGE_MODE_NONE "" qC1 = "" →
      effectiveNameOf fixView0 MERGE_MODE_NONE "" qC1 ≠ "" → vehicleIdOf qC1 = "" →
      parsedProfileId fixEnv fixView0 0 qC1 "en" none MERGE_MODE_NONE "" true false
        = some (slugify (effectiveNameOf fixView0 MERGE_MODE_NONE "" qC1) ++
            (if saltOf (emailOf qC1) (canonicalNameOf MERGE_MODE_NONE "" qC1) ≠ ""
             then "_" ++ saltOf (emailOf qC1) (canonicalNameOf MERGE_MODE_NONE "" qC1) else ""))) ∧
    (canonicalNameOf MERGE_MODE_NONE "" qC1 = "" →
      effectiveNameOf fixView0 MERGE_MODE_NONE "" qC1 = "" → vehicleIdOf qC1 ≠ "" →
      parsedProfileId fixEnv fixView0 0 qC1 "en" none MERGE_MODE_NONE "" true false
        = some (vehicleIdOf qC1 ++
            (if saltOf (emailOf qC1) (canonicalNameOf MERGE_MODE_NONE "" qC1) ≠ ""
             then "_" ++ saltOf (emailOf qC1) (canonicalNameOf MERGE_MODE_NONE "" qC1) else ""))) ∧
    (canonicalNameOf MERGE_MODE_NONE "" qC1 = "" →
      effectiveNameOf fixView0 MERGE_MODE_NONE "" qC1 = "" → vehicleIdOf qC1 = "" →
      parsedProfileId fixEnv fixView0 0 qC1 "en" none MERGE_MODE_NONE "" true false
        = some ("veh_" ++ (⟨(sessionIdOf qC1).data.take 6⟩ : String))) :=
  profile_id_priority fixEnv fixView0 0 qC1 "en" none MERGE_MODE_NONE "" true false (by decide)

theorem tripTimeStep_str (acc : List (String × Value) × List (String × MetaEntry))
    (entry : String × MetaEntry) (x : String)
    (h : dget acc.1 entry.1 = some (Value.str x)) :
    tripTimeStep acc entry = acc := by
  simp only [tripTimeStep]
  split_ifs with hc
  · rw [h]
  · rfl

theorem applyUnitStep_str (acc : List (String × Value) × List (String × MetaEntry))
    (entry : String × MetaEntry) (x : String)
    (h : dget acc.1 entry.1 = some (Value.str x)) :
    applyUnitStep acc entry = acc := by
  simp only [applyUnitStep]
  split_ifs with hc <;> first | rfl | rw [h]

theorem dget_null_map (l : List (String × Value)) (k : String) (v : Value)
    (h : dget l k = some v) :
    dget (l.map (fun p => if _is_non_finite p.2 then (p.1, Value.null) else p)) k
      = some (if _is_non_finite v then Value.null else v) := by
  induction l with
  | nil => simp [dget] at h
  | cons p rest ih =>
    rw [dget_cons] at h
    by_cases hk : p.1 = k
    · rw [if_pos hk] at h
      injection h with h
      subst h
      by_cases hnf : _is_non_finite p.2 = true
      · simp [List.map, hnf, dget_cons, hk]
      · simp [List.map, hnf, dget_cons, hk]
    · rw [if_neg hk] at h
      by_cases hnf : _is_non_finite p.2 = true <;>
        simp [List.map, hnf, dget_cons, hk, ih h]

theorem update_from_session_cars (st : CoordState) (session : Session) (hta : Bool)
    (tok : String → Bool) (hsa : Bool) (sok : String → String → Bool) :
    (update_from_session st session hta tok hsa sok).1.cars
      = dset st.cars (carIdOf session) (sessionStored session) := by
  have h1 : ∀ s3 : CoordState, (backfillPhase s3 hta).1.cars = s3.cars := by
    intro s3
    unfold backfillPhase tryCreateAllTrackers
    split_ifs <;> rfl
  have h2 : ∀ (st1 : CoordState) (car : String) (vals : List (String × Value)),
      (trackerPhase st1 car vals hta tok).1.cars = st1.cars := by
    intro st1 car vals
    simp only [trackerPhase]
    split_ifs <;> rfl
  show (backfillPhase _ hta).1.cars = _
  rw [h1]
  show (trackerPhase (updSt1 st session) (carIdOf session) (nulledValues session)
    hta tok).1.cars = _
  rw [h2]
  rfl

/-- C6: a request whose `keng_rpm` telemetry parameter carries the
string `NaN` (for a catalog-known code `eng_rpm`) is accepted rather
than rejected wholesale: the NaN spelling is refused by the number
parser (api.py lines 140–143), so `_parse_fields` stores the raw
string for that field, and once the session reaches the coordinator
the value stored for the field is null (`update_from_session` nulls
non-finite strings, coordinator.py lines 121–123). -/
theorem nan_value_nulled (env : Env) (st : ViewState) (now : ℤ) (lang : String)
    (io : Option Bool) (rp rm : Bool) (mc : CodeMeta) (cst : CoordState)
    (hta : Bool) (tok : String → Bool) (hsa : Bool) (sok : String → String → Bool)
    (hcode : dget env.codes "eng_rpm" = some mc) :
    ((_parse_fields env st now qC6 lang io MERGE_MODE_NONE "" rp rm).1).isSome = true ∧
    (∀ s, (_parse_fields env st now qC6 lang io MERGE_MODE_NONE "" rp rm).1 = some s →
      dget s.values mc.shortName = some (Value.str "NaN") ∧
      dget (update_from_session cst s hta tok hsa sok).1.cars (carIdOf s)
        = some (sessionStored s) ∧
      dget (sessionStored s).values mc.shortName = some Value.null) := by
  have hget : dget [(mc.shortName, Value.str "NaN")] mc.shortName
      = some (Value.str "NaN") := by
    rw [dget_cons]
    exact if_pos rfl
  have h3 : decodePidsStep env lang ([], [], []) ("keng_rpm", "NaN")
      = ([(mc.shortName, Value.str "NaN")], [(mc.shortName, mC6 env lang mc)],
         ([] : List (String × String))) := by
    rw [show decodePidsStep env lang ([], [], []) ("keng_rpm", "NaN")
        = (fun o : Option CodeMeta =>
            match o with
            | none => (([] : List (String × Value)), ([] : List (String × MetaEntry)),
                [("eng_rpm", "NaN")])
            | some mc0 =>
              ([(mc0.shortName, Value.str "NaN")], [(mc0.shortName, mC6 env lang mc0)],
               ([] : List (String × String))))
          (dget env.codes "eng_rpm") from rfl]
    rw [hcode]
  have hdec : decodePids env lang qC6
      = ([(mc.shortName, Value.str "NaN")], [(mc.shortName, mC6 env lang mc)],
         ([] : List (String × String))) := by
    unfold decodePids qC6
    simp only [List.foldl]
    rw [show decodePidsStep env lang ([], [], []) ("session", "s9") = ([], [], []) from rfl]
    rw [show decodePidsStep env lang ([], [], []) ("name", "My Honda") = ([], [], []) from rfl]
    rw [h3]
  have htrip : List.foldl tripTimeStep
      ([(mc.shortName, Value.str "NaN")], [(mc.shortName, mC6 env lang mc)])
      [(mc.shortName, mC6 env lang mc)]
      = ([(mc.shortName, Value.str "NaN")], [(mc.shortName, mC6 env lang mc)]) := by
    simp only [List.foldl]
    exact tripTimeStep_str _ _ "NaN" hget
  have happ : _apply_unit_preference
      (cleanNonFinite [(mc.shortName, Value.str "NaN")]) [(mc.shortName, mC6 env lang mc)]
      (if io.getD st.imperial0 = true then "imperial" else "metric")
      = ([(mc.shortName, Value.str "NaN")], [(mc.shortName, mC6 env lang mc)]) := by
    show _apply_unit_preference [(mc.shortName, Value.str "NaN")]
      [(mc.shortName, mC6 env lang mc)] _ = _
    unfold _apply_unit_preference
    split_ifs <;>
      first
        | rfl
        | (simp only [List.foldl]; exact applyUnitStep_str _ _ "NaN" hget)
  have hnf : nameFallback st (pyStrip ⟨collapseWsAux false (_extract_profile_name qC6).data⟩)
      (pyStrip (dgetS qC6 "id")) (pyStrip (pyor (dgetS qC6 "eml") (dgetS qC6 "email")))
      = ("My Honda", false) := by
    unfold nameFallback
    rw [if_neg (by decide)]
    decide
  have hparse : (_parse_fields env st now qC6 lang io MERGE_MODE_NONE "" rp rm).1
      = some ⟨"s9", now, ⟨"My Honda", "my_honda", "", none⟩,
          [(mc.shortName, Value.str "NaN")], [(mc.shortName, mC6 env lang mc)], [], lang,
          if io.getD st.imperial0 = true then "imperial" else "metric"⟩ := by
    simp only [_parse_fields]
    rw [if_neg (show ¬(pyStrip (dgetS qC6 "session") = "") by decide), hnf]
    split
    · rename_i hc
      exact absurd hc.2.1 (by decide)
    · split
      · rename_i hc
        exact absurd hc.2.1 (by decide)
      · dsimp only []
        rw [hdec]
        dsimp only []
        rw [show directStage env lang qC6
              ([(mc.shortName, Value.str "NaN")], [(mc.shortName, mC6 env lang mc)])
            = ([(mc.shortName, Value.str "NaN")], [(mc.shortName, mC6 env lang mc)]) from rfl]
        dsimp only []
        rw [htrip]
        dsimp only []
        rw [happ]
        rfl
  refine ⟨by rw [hparse]; rfl, ?_⟩
  intro s hs
  rw [hparse] at hs
  injection hs with hs
  subst hs
  refine ⟨?_, ?_, ?_⟩
  · show dget [(mc.shortName, Value.str "NaN")] mc.shortName = some (Value.str "NaN")
    exact hget
  · rw [update_from_session_cars]
    exact dget_dset_self _ _ _
  · have h := dget_null_map [(mc.shortName, Value.str "NaN")] mc.shortName
      (Value.str "NaN") hget
    rw [show (if _is_non_finite (Value.str "NaN") = true then Value.null else Value.str "NaN")
        = Value.null from by decide] at h
    exact h

/-- C6 witness: concrete run of the NaN theorem on the one-code catalog
`fixEnv` and the fresh view and coordinator states. -/
theorem nan_value_nulled_witness :
    ((_parse_fields fixEnv fixView0 0 qC6 "en" none MERGE_MODE_NONE "" true false).1).isSome
        = true ∧
    (∀ s, (_parse_fields fixEnv fixView0 0 qC6 "en" none MERGE_MODE_NONE "" true false).1
        = some s →
      dget s.values (⟨"eng_rpm", "Engine RPM", "rpm"⟩ : CodeMeta).shortName
        = some (Value.str "NaN") ∧
      dget (update_from_session cinit s false (fun _ => true) true
          (fun _ _ => true)).1.cars (carIdOf s) = some (sessionStored s) ∧
      dget (sessionStored s).values (⟨"eng_rpm", "Engine RPM", "rpm"⟩ : CodeMeta).shortName
        = some Value.null) :=
  nan_value_nulled fixEnv fixView0 0 "en" none true false ⟨"eng_rpm", "Engine RPM", "rpm"⟩
    cinit false (fun _ => true) true (fun _ _ => true) (by decide)

theorem parse_fields_accept_canon (env : Env) (st : ViewState) (now : ℤ)
    (q : List (String × String)) (lang : String) (io : Option Bool) (mm ch : String)
    (rp rm : Bool)
    (hsid : sessionIdOf q ≠ "")
    (hcn : canonicalNameOf mm ch q ≠ "") :
    ((_parse_fields env st now q lang io mm ch rp rm).1).isSome = true := by
  unfold sessionIdOf at hsid
  simp only [_parse_fields]
  rw [if_neg hsid]
  split
  · rename_i hcon
    exact absurd hcon.2.2 hcn
  · split
    · rename_i hcon
      exact absurd hcon.2.2 hcn
    · rfl

/-- C5: whenever the pipeline resolves a route whose merge mode is
`name` and whose name map sends the request's profile name to the
canonical name `c`, an accepted request yields HTTP `OK!` and publishes
a session whose profile Id is `slugify c` — independent of which route
the request arrived through, so two routes mapping the same name to the
same canonical produce the same car id, including when the canonical
has a sticky owner the request is rerouted to. -/
theorem name_merge_same_id (env : Env) (st : ViewState) (now : ℤ)
    (q : List (String × String)) (c : String)
    (hact : st.active = true)
    (hroute : ((_maybe_reroute_by_canonical (_cleanup_sessions st now)
        (_pick_route (_cleanup_sessions st now) (emailOf q))
        (_extract_profile_name q)).1.map
          (fun p => (p.2.merge_mode, _lookup_canonical p.2.name_map (_extract_profile_name q))))
      = some (MERGE_MODE_NAME, c))
    (hc : pyStrip c = c) (hcne : c ≠ "")
    (hsid : sessionIdOf q ≠ "") :
    (handleGet env st now q).1 = .ok ∧
    ((handleGet env st now q).2.2.map (fun p => p.2.profile.Id)) = some (slugify c) := by
  cases hR : (_maybe_reroute_by_canonical (_cleanup_sessions st now)
      (_pick_route (_cleanup_sessions st now) (emailOf q))
      (_extract_profile_name q)).1 with
  | none =>
    rw [hR] at hroute
    simp at hroute
  | some pr =>
    obtain ⟨eid?, route⟩ := pr
    rw [hR] at hroute
    have hpair := Option.some.inj hroute
    have hmode : route.merge_mode = MERGE_MODE_NAME := congrArg Prod.fst hpair
    have hmap : _lookup_canonical route.name_map (_extract_profile_name q) = c :=
      congrArg Prod.snd hpair
    have hcn : canonicalNameOf route.merge_mode
        (if route.merge_mode = MERGE_MODE_NAME
         then _lookup_canonical route.name_map (_extract_profile_name q) else "") q = c := by
      rw [hmode, if_pos rfl, hmap]
      simp only [canonicalNameOf]
      split
      · rename_i hcon
        exact absurd hcon.1 (by decide)
      · exact hc
    have hacc := parse_fields_accept_canon env
      (_maybe_reroute_by_canonical (_cleanup_sessions st now)
        (_pick_route (_cleanup_sessions st now) (emailOf q)) (_extract_profile_name q)).2
      now q (_pick_lang (pyor (pyor (dgetS q "lang") (dgetS q "language")) route.lang))
      (some route.imperial) route.merge_mode
      (if route.merge_mode = MERGE_MODE_NAME
       then _lookup_canonical route.name_map (_extract_profile_name q) else "")
      route.reject_poor_name route.require_mapped_name hsid (by rw [hcn]; exact hcne)
    have hid := parse_fields_id env
      (_maybe_reroute_by_canonical (_cleanup_sessions st now)
        (_pick_route (_cleanup_sessions st now) (emailOf q)) (_extract_profile_name q)).2
      now q (_pick_lang (pyor (pyor (dgetS q "lang") (dgetS q "language")) route.lang))
      (some route.imperial) route.merge_mode
      (if route.merge_mode = MERGE_MODE_NAME
       then _lookup_canonical route.name_map (_extract_profile_name q) else "")
      route.reject_poor_name route.require_mapped_name hacc
    have hidc : parsedProfileId env
        (_maybe_reroute_by_canonical (_cleanup_sessions st now)
          (_pick_route (_cleanup_sessions st now) (emailOf q)) (_extract_profile_name q)).2
        now q (_pick_lang (pyor (pyor (dgetS q "lang") (dgetS q "language")) route.lang))
        (some route.imperial) route.merge_mode
        (if route.merge_mode = MERGE_MODE_NAME
         then _lookup_canonical route.name_map (_extract_profile_name q) else "")
        route.reject_poor_name route.require_mapped_name = some (slugify c) := by
      rw [hid]
      unfold deriveProfileId
      rw [hcn, if_pos hcne]
    unfold handleGet
    rw [if_neg (by simp [hact])]
    unfold emailOf at hR hacc hidc
    unfold parsedProfileId at hidc
    simp only [processQuery]
    split
    · rename_i hnone
      rw [hR] at hnone
      exact absurd hnone (by simp)
    · rename_i eid2 route2 hsome
      rw [hR] at hsome
      injection hsome with hsome
      obtain ⟨heid, hrt⟩ := Prod.mk.injEq .. |>.mp hsome
      subst hrt
      split
      · rename_i hps
        rw [hps] at hacc
        simp at hacc
      · rename_i session hps
        rw [hps] at hidc
        refine ⟨rfl, ?_⟩
        exact hidc

/-- C5 witness: on the two-route `fixView2`, the mapped name through
route `eA` yields car id `shared_car`; after `eA` has established
ownership of the canonical, the first contact through route `eB` is
rerouted and yields the same `shared_car` id. -/
theorem name_merge_same_id_witness :
    ((handleGet fixEnv fixView2 0 qC5A).1 = .ok ∧
     ((handleGet fixEnv fixView2 0 qC5A).2.2.map (fun p => p.2.profile.Id))
       = some (slugify "shared-car")) ∧
    ((handleGet fixEnv fixView2After 5 qC5B).1 = .ok ∧
     ((handleGet fixEnv fixView2After 5 qC5B).2.2.map (fun p => p.2.profile.Id))
       = some (slugify "shared-car")) :=
  ⟨name_merge_same_id fixEnv fixView2 0 qC5A "shared-car"
      (by decide) (by decide) (by decide) (by decide) (by decide),
   name_merge_same_id fixEnv fixView2After 5 qC5B "shared-car"
      (by decide) (by decide) (by decide) (by decide) (by decide)⟩

/-- C1 counterexample: the accepted request `qC1` has a usable name, an
email and no vehicle id; the handler produces `my_honda_1022` — the
email salt is appended — while the claim's derivation (salt omitted
without a vehicle-id) yields `my_honda`. -/
theorem reroute_preserves (st : ViewState) (init : Option (Option String × Route))
    (pn : String) :
    (_maybe_reroute_by_canonical st init pn).2.sessions = st.sessions ∧
    (_maybe_reroute_by_canonical st init pn).2.last_name_by_id = st.last_name_by_id ∧
    (_maybe_reroute_by_canonical st init pn).2.last_name_by_email = st.last_name_by_email := by
  rcases init with _ | ⟨eid?, r⟩ <;>
    refine ⟨?_, ?_, ?_⟩ <;>
      (simp only [_maybe_reroute_by_canonical]
       split_ifs <;> (repeat' split) <;> rfl)

theorem nameFallback_congr (st1 st2 : ViewState) (a b c : String)
    (hid : st1.last_name_by_id = st2.last_name_by_id)
    (hem : st1.last_name_by_email = st2.last_name_by_email) :
    nameFallback st1 a b c = nameFallback st2 a b c := by
  unfold nameFallback
  rw [hid, hem]

theorem parse_fields_reject (env : Env) (st : ViewState) (now : ℤ)
    (q : List (String × String)) (lang : String) (io : Option Bool) (mm ch : String)
    (rm : Bool)
    (hpoor : (nameFallback st (rawNameOf q) (vehicleIdOf q) (emailOf q)).1 = "" ∨
      _is_poor_name (nameFallback st (rawNameOf q) (vehicleIdOf q) (emailOf q)).1 = true)
    (hcanon : canonicalNameOf mm ch q = "") :
    _parse_fields env st now q lang io mm ch true rm = (none, st) := by
  unfold rawNameOf emailOf vehicleIdOf at hpoor
  simp only [_parse_fields]
  split
  · rfl
  · rw [if_pos ⟨by trivial, hpoor, hcanon⟩]

/-- C4: when the resolved route has `reject_poor_name`, the request's
profile name (after the remembered-name fallback) is missing or poor,
and no canonical identity exists, the handler answers `IGNORED` with
HTTP 200, the session cache holds exactly the result of the
pre-request cleanup (no entry was added), and nothing is published to
any coordinator. -/
theorem reject_poor_ignored (env : Env) (st : ViewState) (now : ℤ)
    (q : List (String × String)) (eid? : Option String) (route : Route)
    (hact : st.active = true)
    (hroute : (_maybe_reroute_by_canonical (_cleanup_sessions st now)
        (_pick_route (_cleanup_sessions st now) (emailOf q))
        (_extract_profile_name q)).1 = some (eid?, route))
    (hrp : route.reject_poor_name = true)
    (hpoor : (nameFallback st (rawNameOf q) (vehicleIdOf q) (emailOf q)).1 = "" ∨
      _is_poor_name (nameFallback st (rawNameOf q) (vehicleIdOf q) (emailOf q)).1 = true)
    (hcanon : canonicalNameOf route.merge_mode (canonicalOfRoute route q) q = "") :
    (handleGet env st now q).1 = .ignored ∧
    (handleGet env st now q).1.status = 200 ∧
    (handleGet env st now q).2.1.sessions
      = cacheCleanup st.ttl_seconds st.max_sessions now st.sessions ∧
    (handleGet env st now q).2.2 = none := by
  have hpres := reroute_preserves (_cleanup_sessions st now)
    (_pick_route (_cleanup_sessions st now) (emailOf q)) (_extract_profile_name q)
  have hnfc : nameFallback (_maybe_reroute_by_canonical (_cleanup_sessions st now)
        (_pick_route (_cleanup_sessions st now) (emailOf q)) (_extract_profile_name q)).2
        (rawNameOf q) (vehicleIdOf q) (emailOf q)
      = nameFallback st (rawNameOf q) (vehicleIdOf q) (emailOf q) := by
    apply nameFallback_congr
    · rw [hpres.2.1]
      rfl
    · rw [hpres.2.2]
      rfl
  have hrej := parse_fields_reject env
    (_maybe_reroute_by_canonical (_cleanup_sessions st now)
      (_pick_route (_cleanup_sessions st now) (emailOf q)) (_extract_profile_name q)).2
    now q (_pick_lang (pyor (pyor (dgetS q "lang") (dgetS q "language")) route.lang))
    (some route.imperial) route.merge_mode (canonicalOfRoute route q)
    route.require_mapped_name (by rw [hnfc]; exact hpoor) hcanon
  have hmain : handleGet env st now q
      = (.ignored, (_maybe_reroute_by_canonical (_cleanup_sessions st now)
          (_pick_route (_cleanup_sessions st now) (emailOf q))
          (_extract_profile_name q)).2, none) := by
    unfold handleGet
    rw [if_neg (by simp [hact])]
    unfold emailOf at hroute hrej
    unfold canonicalOfRoute at hrej
    simp only [processQuery]
    split
    · rename_i hnone
      rw [hroute] at hnone
      exact absurd hnone (by simp)
    · rename_i eid2 route2 hsome
      rw [hroute] at hsome
      injection hsome with hsome
      obtain ⟨heid, hrt⟩ := Prod.mk.injEq .. |>.mp hsome
      subst hrt
      rw [hrp]
      rw [hrej]
      rfl
  refine ⟨by rw [hmain], by rw [hmain]; rfl, ?_, by rw [hmain]⟩
  rw [hmain]
  show (_maybe_reroute_by_canonical (_cleanup_sessions st now)
    (_pick_route (_cleanup_sessions st now) (emailOf q))
    (_extract_profile_name q)).2.sessions = _
  rw [hpres.1]
  rfl

/-- C4 witness: concrete run of the poor-name rejection theorem — the
`fixView` route (reject_poor_name set) and the poor-named request
`qC4`. -/
theorem reject_poor_ignored_witness :
    (handleGet fixEnv fixView 0 qC4).1 = .ignored ∧
    (handleGet fixEnv fixView 0 qC4).1.status = 200 ∧
    (handleGet fixEnv fixView 0 qC4).2.1.sessions
      = cacheCleanup fixView.ttl_seconds fixView.max_sessions 0 fixView.sessions ∧
    (handleGet fixEnv fixView 0 qC4).2.2 = none :=
  reject_poor_ignored fixEnv fixView 0 qC4 (some "e1") routeC4
    (by decide) (by decide) (by decide) (by decide) (by decide)

theorem profile_id_salt_counterexample :
    parsedProfileId fixEnv fixView0 0 qC1 "en" none MERGE_MODE_NONE "" true false
        = some "my_honda_1022" ∧
    deriveProfileIdClaim (canonicalNameOf MERGE_MODE_NONE "" qC1)
      (effectiveNameOf fixView0 MERGE_MODE_NONE "" qC1)
      (vehicleIdOf qC1) (sessionIdOf qC1)
      (saltOf (emailOf qC1) (canonicalNameOf MERGE_MODE_NONE "" qC1)) = "my_honda" := by
  decide

end OBD
